import Mathlib

/-!
Identity-provider management of `thunder`: embedding and verified properties

A shallow embedding of the three layers of the IdP subsystem

* `backend/internal/idp/store/store.go`     (persistence adapter),
* `backend/internal/idp/service/idpservice.go` (domain service),
* `backend/internal/idp/handler/idphandler.go` (request handler),

followed by theorems about them.

Conventions of the embedding.

* A Go `string` is a sequence of bytes; it is the `String` whose characters are
  those bytes, one character of code below 256 for each (for ASCII text, which
  is all the source writes, that is the text itself; the byte `0xff` is
  `"\xff"`).  A `[]byte` value is represented by the string that `string(v)`
  yields for it (the conversion is a bijection on byte sequences).
* A Go function returning `(T, error)` by value returns `T × Option GoError`
  (`none` is the `nil` error); a function returning `(*T, error)` that yields
  exactly one of the two returns `Except GoError T`.
* Everything outside the repository (database client, UUID generator,
  `encoding/json`, `net/http`) is either a field of `Env`, so theorems quantify
  over every behaviour it can have, or a small documented model
  (`ResponseWriter`; `Ref.marshal` and `Ref.unmarshal` for `encoding/json` on a
  sequence of strings).
* The world outside the process is a state `σ` threaded through every call.
* Logging has no effect on results and is left out.
-/

namespace Thunder

/-! ## Errors -/

/-- Go `error` values as this code base builds and inspects them.
Modelled from the spec: the two sentinels are declared in `internal/idp/model`
(missing from src); only their identity matters, which the constructors give. -/
inductive GoError where
  /-- `model.ErrIdPNotFound` -/
  | ErrIdPNotFound : GoError
  /-- `model.ErrBadScopesInRequest` -/
  | ErrBadScopesInRequest : GoError
  /-- `errors.New(msg)` or `fmt.Errorf(msg)` without `%w` -/
  | new (msg : String) : GoError
  /-- `fmt.Errorf(msg + ": %w", err)` -/
  | wrap (msg : String) (err : GoError) : GoError
  deriving DecidableEq, Repr

/-- `errors.Is(err, target)`: `target` occurs on the unwrap chain of `err`. -/
def errorsIs : GoError → GoError → Bool
  | .wrap msg inner, target =>
      decide (GoError.wrap msg inner = target) || errorsIs inner target
  | e, target => decide (e = target)

/-! ## Data model -/

/-- The record `model.IdP`.
Modelled from the spec: the struct is declared in `internal/idp/model` (missing
from src); the fields are those the store, service and handler read and write,
`scopes` being an ordered sequence of scope-name strings. -/
structure IdP where
  ID : String
  Name : String
  Description : String
  ClientID : String
  ClientSecret : String
  RedirectURI : String
  Scopes : List String
  deriving DecidableEq, Repr

/-- The zero value `model.IdP{}`. -/
def IdP.zero : IdP := ⟨"", "", "", "", "", "", []⟩

/-! ## Database client -/

/-- A value of Go type `interface{}` as passed to and delivered by the driver. -/
inductive GoAny where
  /-- a `string` -/
  | str (s : String) : GoAny
  /-- a `[]byte`, given by the string `string(v)` -/
  | bytes (s : String) : GoAny
  /-- an `int64` -/
  | int (n : Int) : GoAny
  /-- the `nil` interface value (SQL NULL) -/
  | null : GoAny
  deriving DecidableEq, Repr

/-- A result row, `map[string]interface{}`; `Row.get` is the map index. -/
abbrev Row := List (String × GoAny)

/-- The map index `row[key]`; `none` is the missing key (a `nil` interface). -/
def Row.get (row : Row) (key : String) : Option GoAny := List.lookup key row

/-- The type assertion `row[key].(string)`. -/
def Row.getString (row : Row) (key : String) : Option String :=
  match row.get key with
  | some (.str s) => some s
  | _ => none

/-- The statement descriptor `dbmodel.DBQuery`. -/
structure DBQuery where
  ID : String
  Query : String
  deriving DecidableEq, Repr

/-- The database client handed out by the provider: `Query`, `Execute`, `Close`,
each acting on the outside world `σ`. -/
structure DBClient (σ : Type) where
  Query : DBQuery → List GoAny → σ → Except GoError (List Row) × σ
  Execute : DBQuery → List GoAny → σ → Except GoError Int × σ
  Close : σ → Option GoError × σ

/-- A JSON scalar or string array occurring in the responses of this API. -/
inductive JSONField where
  | string (s : String) : JSONField
  | strings (xs : List String) : JSONField
  deriving DecidableEq, Repr

/-- A JSON object as an ordered list of members. -/
abbrev JSONObject := List (String × JSONField)

/-- The values the handlers hand to `json.NewEncoder(w).Encode`. -/
inductive JSONBody where
  | object (o : JSONObject) : JSONBody
  | array (os : List JSONObject) : JSONBody
  deriving DecidableEq, Repr

/-- The collaborators of the subsystem, all external to it. -/
structure Env (σ : Type) where
  /-- `provider.NewDBProvider().GetDBClient(name)` -/
  GetDBClient : String → σ → Except GoError (DBClient σ) × σ
  /-- `utils.GenerateUUID()` -/
  GenerateUUID : σ → String × σ
  /-- `json.Marshal(idp.Scopes)` followed by `string(...)` -/
  Marshal : List String → Except GoError String
  /-- `json.Unmarshal([]byte(scopes), &idp.Scopes)` -/
  Unmarshal : String → Except GoError (List String)
  /-- `json.NewDecoder(r.Body).Decode(&idp)` on a zero record -/
  Decode : String → Except GoError IdP
  /-- `json.NewEncoder(w).Encode(v)`: the bytes written, or the encoding error -/
  Encode : JSONBody → Except GoError String

/-! ## `store/constants.go` -/

namespace store

def QueryCreateIdP : DBQuery :=
  { ID := "IPQ-IDP_MGT-01",
    Query := "INSERT INTO \"IDP\" (IDP_ID, NAME, DESCRIPTION, CLIENT_ID, CLIENT_SECRET, REDIRECT_URI, SCOPES) " ++
      "VALUES ($1, $2, $3, $4, $5, $6, $7)" }

def QueryGetIdPByIdPID : DBQuery :=
  { ID := "IPQ-IDP_MGT-02",
    Query := "SELECT IDP_ID, NAME, DESCRIPTION, CLIENT_ID, CLIENT_SECRET, REDIRECT_URI, SCOPES FROM \"IDP\" " ++
      "WHERE IDP_ID = $1" }

def QueryGetIdPList : DBQuery :=
  { ID := "IPQ-IDP_MGT-03",
    Query := "SELECT IDP_ID, NAME, DESCRIPTION, CLIENT_ID, CLIENT_SECRET, REDIRECT_URI, SCOPES FROM \"IDP\"" }

def QueryUpdateIdPByIdPID : DBQuery :=
  { ID := "IPQ-IDP_MGT-04",
    Query := "UPDATE \"IDP\" SET NAME = $2, DESCRIPTION = $3, CLIENT_ID = $4, CLIENT_SECRET = $5, " ++
      "REDIRECT_URI = $6, SCOPES = $7 WHERE IDP_ID = $1;" }

def QueryDeleteIdPByIdPID : DBQuery :=
  { ID := "IPQ-IDP_MGT-05",
    Query := "DELETE FROM \"IDP\" WHERE IDP_ID = $1" }

/-! ## `store/store.go` -/

/-- The `switch v := row["scopes"].(type)` of both row decoders: a `string` or a
`[]byte` is normalised to a string, anything else is rejected. -/
def scopesColumn (row : Row) : Option String :=
  match row.get "scopes" with
  | some (.str v) => some v
  | some (.bytes v) => some v
  | _ => none

/-- `buildIdPFromResultRow`. -/
def buildIdPFromResultRow {σ : Type} (env : Env σ) (row : Row) : IdP × Option GoError :=
  match row.getString "idp_id" with
  | none => (IdP.zero, some (.new "failed to parse idp_id as string"))
  | some idPID =>
  match row.getString "name" with
  | none => (IdP.zero, some (.new "failed to parse name as string"))
  | some idPName =>
  match row.getString "description" with
  | none => (IdP.zero, some (.new "failed to parse description as string"))
  | some idPDescription =>
  match row.getString "client_id" with
  | none => (IdP.zero, some (.new "failed to parse client_id as string"))
  | some idPClientID =>
  match row.getString "client_secret" with
  | none => (IdP.zero, some (.new "failed to parse client_secret as string"))
  | some idPClientSecret =>
  match row.getString "redirect_uri" with
  | none => (IdP.zero, some (.new "failed to parse redirect_uri as string"))
  | some idPRedirectURI =>
  match scopesColumn row with
  | none => (IdP.zero, some (.new "failed to parse scopes as string"))
  | some scopes =>
    let idp : IdP :=
      { ID := idPID, Name := idPName, Description := idPDescription, ClientID := idPClientID,
        ClientSecret := idPClientSecret, RedirectURI := idPRedirectURI, Scopes := [] }
    match env.Unmarshal scopes with
    | .error _ => (IdP.zero, some (.new "failed to unmarshal scopes"))
    | .ok sc => ({ idp with Scopes := sc }, none)

/-- `buildIdPForListFromResultRow`. -/
def buildIdPForListFromResultRow {σ : Type} (env : Env σ) (row : Row) : IdP × Option GoError :=
  match row.getString "idp_id" with
  | none => (IdP.zero, some (.new "failed to parse idp_id as string"))
  | some idPID =>
  match row.getString "name" with
  | none => (IdP.zero, some (.new "failed to parse name as string"))
  | some idPName =>
  match row.getString "description" with
  | none => (IdP.zero, some (.new "failed to parse description as string"))
  | some idPDescription =>
  match row.getString "client_id" with
  | none => (IdP.zero, some (.new "failed to parse client_id as string"))
  | some idPClientID =>
  match scopesColumn row with
  | none => (IdP.zero, some (.new "failed to parse scopes as string"))
  | some scopes =>
    let idp : IdP :=
      { ID := idPID, Name := idPName, Description := idPDescription, ClientID := idPClientID,
        ClientSecret := "", RedirectURI := "", Scopes := [] }
    match env.Unmarshal scopes with
    | .error _ => (IdP.zero, some (.new "failed to unmarshal scopes"))
    | .ok sc => ({ idp with Scopes := sc }, none)

/-- The deferred `dbClient.Close()` of every store function: it runs on every
exit path after the result has been fixed.  The closure assigns the close error
to the local variable `err`, but the functions have unnamed results, so the
value already returned is not changed. -/
def closing {σ α : Type} (c : DBClient σ) (body : α × σ) : α × σ :=
  (body.1, (c.Close body.2).2)

/-- `CreateIdP`. -/
def CreateIdP {σ : Type} (env : Env σ) (idp : IdP) (s : σ) : Option GoError × σ :=
  match env.GetDBClient "identity" s with
  | (.error err, s1) => (some (.wrap "failed to get database client" err), s1)
  | (.ok dbClient, s1) =>
    closing dbClient <|
      match env.Marshal idp.Scopes with
      | .error _ => (some .ErrBadScopesInRequest, s1)
      | .ok scopes =>
        match dbClient.Execute QueryCreateIdP
            [.str idp.ID, .str idp.Name, .str idp.Description, .str idp.ClientID,
             .str idp.ClientSecret, .str idp.RedirectURI, .str scopes] s1 with
        | (.error err, s2) => (some (.wrap "failed to execute query" err), s2)
        | (.ok _, s2) => (none, s2)

/-- The `for _, row := range results` loop of `GetIdPList`, from the rows left
and the records appended so far. -/
def GetIdPList.loop {σ : Type} (env : Env σ) : List Row → List IdP → List IdP × Option GoError
  | [], idps => (idps, none)
  | row :: rest, idps =>
    match buildIdPForListFromResultRow env row with
    | (_, some err) => ([], some (.wrap "failed to build idp from result row" err))
    | (idp, none) => GetIdPList.loop env rest (idps ++ [idp])

/-- `GetIdPList` (a `nil` slice is the empty list). -/
def GetIdPList {σ : Type} (env : Env σ) (s : σ) : (List IdP × Option GoError) × σ :=
  match env.GetDBClient "identity" s with
  | (.error err, s1) => (([], some (.wrap "failed to get database client" err)), s1)
  | (.ok dbClient, s1) =>
    closing dbClient <|
      match dbClient.Query QueryGetIdPList [] s1 with
      | (.error err, s2) => (([], some (.wrap "failed to execute query" err)), s2)
      | (.ok results, s2) => (GetIdPList.loop env results [], s2)

/-- `GetIdP`. -/
def GetIdP {σ : Type} (env : Env σ) (id : String) (s : σ) : (IdP × Option GoError) × σ :=
  match env.GetDBClient "identity" s with
  | (.error err, s1) => ((IdP.zero, some (.wrap "failed to get database client" err)), s1)
  | (.ok dbClient, s1) =>
    closing dbClient <|
      match dbClient.Query QueryGetIdPByIdPID [.str id] s1 with
      | (.error err, s2) => ((IdP.zero, some (.wrap "failed to execute query" err)), s2)
      | (.ok results, s2) =>
        if results.length = 0 then
          ((IdP.zero, some .ErrIdPNotFound), s2)
        else if results.length ≠ 1 then
          ((IdP.zero, some (.new ("unexpected number of results: " ++ toString results.length))), s2)
        else
          match results.head? with
          | none => ((IdP.zero, some .ErrIdPNotFound), s2) -- not reached: the length is 1
          | some row =>
            match buildIdPFromResultRow env row with
            | (_, some err) => ((IdP.zero, some (.wrap "failed to build idp from result row" err)), s2)
            | (idp, none) => ((idp, none), s2)

/-- `UpdateIdP`. -/
def UpdateIdP {σ : Type} (env : Env σ) (idp : IdP) (s : σ) : Option GoError × σ :=
  match env.GetDBClient "identity" s with
  | (.error err, s1) => (some (.wrap "failed to get database client" err), s1)
  | (.ok dbClient, s1) =>
    closing dbClient <|
      match env.Marshal idp.Scopes with
      | .error _ => (some .ErrBadScopesInRequest, s1)
      | .ok scopes =>
        match dbClient.Execute QueryUpdateIdPByIdPID
            [.str idp.ID, .str idp.Name, .str idp.Description, .str idp.ClientID,
             .str idp.ClientSecret, .str idp.RedirectURI, .str scopes] s1 with
        | (.error err, s2) => (some (.wrap "failed to execute query" err), s2)
        | (.ok rowsAffected, s2) =>
          if rowsAffected = 0 then (some .ErrIdPNotFound, s2) else (none, s2)

/-- `DeleteIdP`. -/
def DeleteIdP {σ : Type} (env : Env σ) (id : String) (s : σ) : Option GoError × σ :=
  match env.GetDBClient "identity" s with
  | (.error err, s1) => (some (.wrap "failed to get database client" err), s1)
  | (.ok dbClient, s1) =>
    closing dbClient <|
      match dbClient.Execute QueryDeleteIdPByIdPID [.str id] s1 with
      | (.error err, s2) => (some (.wrap "failed to execute query" err), s2)
      | (.ok rowsAffected, s2) =>
        -- `if rowsAffected == 0` only logs; both paths reach `return nil`
        if rowsAffected = 0 then (none, s2) else (none, s2)

/-- The row `row` holds, column by column, what an insert or update writes for
the record `idp` with `scopes` as its serialised scopes (the SCOPES column in
either of its two representations). -/
def Carries (row : Row) (idp : IdP) (scopes : String) : Prop :=
  row.getString "idp_id" = some idp.ID ∧ row.getString "name" = some idp.Name ∧
  row.getString "description" = some idp.Description ∧
  row.getString "client_id" = some idp.ClientID ∧
  row.getString "client_secret" = some idp.ClientSecret ∧
  row.getString "redirect_uri" = some idp.RedirectURI ∧ scopesColumn row = some scopes

instance (row : Row) (idp : IdP) (scopes : String) : Decidable (Carries row idp scopes) := by
  unfold Carries
  infer_instance

end store

/-! ## `service/idpservice.go` -/

namespace service

/-- `IdPService.CreateIdP`. -/
def CreateIdP {σ : Type} (env : Env σ) (idP : IdP) (s : σ) : Except GoError IdP × σ :=
  let (uuid, s1) := env.GenerateUUID s
  let idP : IdP := { idP with ID := uuid }
  match store.CreateIdP env idP s1 with
  | (some err, s2) => (.error err, s2)
  | (none, s2) => (.ok idP, s2)

/-- `IdPService.GetIdPList`. -/
def GetIdPList {σ : Type} (env : Env σ) (s : σ) : (List IdP × Option GoError) × σ :=
  match store.GetIdPList env s with
  | ((_, some err), s1) => (([], some err), s1)
  | ((idPs, none), s1) => ((idPs, none), s1)

/-- `IdPService.GetIdP`. -/
def GetIdP {σ : Type} (env : Env σ) (idPID : String) (s : σ) : Except GoError IdP × σ :=
  if idPID = "" then
    (.error (.new "IdP ID is empty"), s)
  else
    match store.GetIdP env idPID s with
    | ((_, some err), s1) => (.error err, s1)
    | ((idP, none), s1) => (.ok idP, s1)

/-- `IdPService.UpdateIdP`. -/
def UpdateIdP {σ : Type} (env : Env σ) (idPID : String) (idP : IdP) (s : σ) :
    Except GoError IdP × σ :=
  if idPID = "" then
    (.error (.new "IdP ID is empty"), s)
  else
    match store.UpdateIdP env idP s with
    | (some err, s1) => (.error err, s1)
    | (none, s1) => (.ok idP, s1)

/-- `IdPService.DeleteIdP`. -/
def DeleteIdP {σ : Type} (env : Env σ) (idPID : String) (s : σ) : Option GoError × σ :=
  if idPID = "" then
    (some (.new "IdP ID is empty"), s)
  else
    match store.DeleteIdP env idPID s with
    | (some err, s1) => (some err, s1)
    | (none, s1) => (none, s1)

end service

/-! ## `net/http` response writer -/

/-- The header map `http.Header`. -/
abbrev Header := List (String × String)

/-- `Header.Del`. -/
def Header.Del (h : Header) (key : String) : Header := h.filter (fun kv => kv.1 ≠ key)

/-- `Header.Set`. -/
def Header.Set (h : Header) (key value : String) : Header := (key, value) :: Header.Del h key

/-- `Header.Get`: the value, or the empty string. -/
def Header.Get (h : Header) (key : String) : String := (List.lookup key h).getD ""

/-- The server side of `http.ResponseWriter`: the live header map, the status
line with the header snapshot sent along with it (fixed by the first
`WriteHeader`), and the body bytes written so far. -/
structure ResponseWriter where
  header : Header
  sent : Option (Nat × Header)
  body : String
  deriving DecidableEq, Repr

namespace ResponseWriter

/-- The writer a handler receives for a new request. -/
def fresh : ResponseWriter := { header := [], sent := none, body := "" }

/-- `w.Header().Set(key, value)`. -/
def SetHeader (w : ResponseWriter) (key value : String) : ResponseWriter :=
  { w with header := Header.Set w.header key value }

/-- `w.WriteHeader(code)`: only the first call takes effect. -/
def WriteHeader (w : ResponseWriter) (code : Nat) : ResponseWriter :=
  match w.sent with
  | some _ => w
  | none => { w with sent := some (code, w.header) }

/-- Whether a response of this status code may carry a body
(`bodyAllowedForStatus`). -/
def bodyAllowedForStatus (code : Nat) : Bool :=
  !((100 ≤ code && code ≤ 199) || code = 204 || code = 304)

/-- `w.Write(data)`: sends status 200 first if no status was written. -/
def Write (w : ResponseWriter) (data : String) : ResponseWriter :=
  let w1 := w.WriteHeader 200
  match w1.sent with
  | some (code, _) => if bodyAllowedForStatus code then { w1 with body := w1.body ++ data } else w1
  | none => w1

/-- The status code of the response once the handler has returned (200 when the
handler never wrote one). -/
def StatusCode (w : ResponseWriter) : Nat :=
  match w.sent with
  | some (code, _) => code
  | none => 200

/-- A header of the response as sent. -/
def SentHeader (w : ResponseWriter) (key : String) : String :=
  match w.sent with
  | some (_, h) => Header.Get h key
  | none => Header.Get w.header key

end ResponseWriter

/-- `http.Error(w, error, code)`. -/
def httpError (w : ResponseWriter) (error : String) (code : Nat) : ResponseWriter :=
  let h := Header.Del w.header "Content-Length"
  let h := Header.Set h "Content-Type" "text/plain; charset=utf-8"
  let h := Header.Set h "X-Content-Type-Options" "nosniff"
  let w := { w with header := h }
  let w := w.WriteHeader code
  w.Write (error ++ "\n")

/-- `strings.HasPrefix` on the characters left: the rest after the prefix. -/
def cutPrefix : List Char → List Char → Option (List Char)
  | cs, [] => some cs
  | [], _ :: _ => none
  | c :: cs, p :: ps => if c = p then cutPrefix cs ps else none

/-- `strings.TrimPrefix(s, pre)`. -/
def TrimPrefix (s pre : String) : String :=
  match cutPrefix s.data pre.data with
  | some rest => String.mk rest
  | none => s

/-- The part of `*http.Request` the handlers read. -/
structure Request where
  URLPath : String
  Body : String
  deriving DecidableEq, Repr

/-! ## `handler/idphandler.go` -/

namespace handler

/-- The JSON object `encoding/json` builds from a `model.IdP`.
Modelled from the spec: the struct tags are declared in `internal/idp/model`
(missing from src); the member names are those of the API contract, as the
integration tests decode them. -/
def idpJSON (idp : IdP) : JSONObject :=
  [("id", .string idp.ID), ("name", .string idp.Name), ("description", .string idp.Description),
   ("client_id", .string idp.ClientID), ("client_secret", .string idp.ClientSecret),
   ("redirect_uri", .string idp.RedirectURI), ("scopes", .strings idp.Scopes)]

/-- The local `idpMap` of `HandleIdPGetRequest`. -/
def idpMap (idp : IdP) : JSONObject :=
  [("id", .string idp.ID), ("name", .string idp.Name), ("description", .string idp.Description),
   ("client_id", .string idp.ClientID), ("redirect_uri", .string idp.RedirectURI),
   ("scopes", .strings idp.Scopes)]

/-- `json.NewEncoder(w).Encode(v)` followed by the handler's `if err != nil`
branch: the encoded bytes are written, or nothing is written and
`http.Error(w, "Internal Server Error", 500)` is called. -/
def encodeOrError {σ : Type} (env : Env σ) (w : ResponseWriter) (v : JSONBody) : ResponseWriter :=
  match env.Encode v with
  | .ok out => w.Write out
  | .error _ => httpError w "Internal Server Error" 500

/-- `IdPHandler.HandleIdPPostRequest`. -/
def HandleIdPPostRequest {σ : Type} (env : Env σ) (r : Request) (w : ResponseWriter) (s : σ) :
    ResponseWriter × σ :=
  match env.Decode r.Body with
  | .error _ =>
    (httpError w "Bad Request: The request body is malformed or contains invalid data." 400, s)
  | .ok idPInCreationRequest =>
    match service.CreateIdP env idPInCreationRequest s with
    | (.error err, s1) =>
      let w :=
        if errorsIs err .ErrBadScopesInRequest then
          httpError w "Bad Request: The scopes element is malformed or contains invalid data." 400
        else
          httpError w "Internal Server Error" 500
      (httpError w "Internal Server Error" 500, s1)
    | (.ok createdIdP, s1) =>
      let w := w.SetHeader "Content-Type" "application/json"
      let w := w.WriteHeader 201
      (encodeOrError env w (.object (idpJSON createdIdP)), s1)

/-- `IdPHandler.HandleIdPListRequest`. -/
def HandleIdPListRequest {σ : Type} (env : Env σ) (_r : Request) (w : ResponseWriter) (s : σ) :
    ResponseWriter × σ :=
  match service.GetIdPList env s with
  | ((_, some _), s1) => (httpError w "Internal Server Error" 500, s1)
  | ((idps, none), s1) =>
    let w := w.SetHeader "Content-Type" "application/json"
    (encodeOrError env w (.array (idps.map idpJSON)), s1)

/-- `IdPHandler.HandleIdPGetRequest`. -/
def HandleIdPGetRequest {σ : Type} (env : Env σ) (r : Request) (w : ResponseWriter) (s : σ) :
    ResponseWriter × σ :=
  let id := TrimPrefix r.URLPath "/identity-providers/"
  if id = "" then
    (httpError w "Bad Request: Missing identity provider id." 400, s)
  else
    match service.GetIdP env id s with
    | (.error err, s1) =>
      if errorsIs err .ErrIdPNotFound then
        (httpError w "Not Found: The identity provider with the specified id does not exist." 404, s1)
      else
        (httpError w "Internal Server Error" 500, s1)
    | (.ok idp, s1) =>
      let w := w.SetHeader "Content-Type" "application/json"
      (encodeOrError env w (.object (idpMap idp)), s1)

/-- `IdPHandler.HandleIdPPutRequest`. -/
def HandleIdPPutRequest {σ : Type} (env : Env σ) (r : Request) (w : ResponseWriter) (s : σ) :
    ResponseWriter × σ :=
  let id := TrimPrefix r.URLPath "/identity-providers/"
  if id = "" then
    (httpError w "Bad Request: Missing identity provider id." 400, s)
  else
    match env.Decode r.Body with
    | .error _ =>
      (httpError w "Bad Request: The request body is malformed or contains invalid data." 400, s)
    | .ok updatedIdP =>
      let updatedIdP : IdP := { updatedIdP with ID := id }
      match service.UpdateIdP env id updatedIdP s with
      | (.error err, s1) =>
        if errorsIs err .ErrIdPNotFound then
          (httpError w "Not Found: The identity provider with the specified id does not exist." 404, s1)
        else if errorsIs err .ErrBadScopesInRequest then
          (httpError w "Bad Request: The attributes element is malformed or contains invalid data." 400, s1)
        else
          (httpError w "Internal Server Error" 500, s1)
      | (.ok idp, s1) =>
        let w := w.SetHeader "Content-Type" "application/json"
        (encodeOrError env w (.object (idpJSON idp)), s1)

/-- `IdPHandler.HandleIdPDeleteRequest`. -/
def HandleIdPDeleteRequest {σ : Type} (env : Env σ) (r : Request) (w : ResponseWriter) (s : σ) :
    ResponseWriter × σ :=
  let id := TrimPrefix r.URLPath "/identity-providers/"
  if id = "" then
    (httpError w "Bad Request: Missing identity provider id." 400, s)
  else
    match service.DeleteIdP env id s with
    | (some _, s1) => (httpError w "Internal Server Error" 500, s1)
    | (none, s1) => (w.WriteHeader 204, s1)

end handler

/-! ## A reference environment

An in-memory table that carries out the five statements of `store/constants.go`,
a generator handing out identifiers from a supply, and `encoding/json` on
sequences of strings.  The closed instances of the theorems below are evaluated
in it. -/

namespace Ref

/-- One row of table `IDP`, column by column. -/
structure TableRow where
  IDP_ID : String
  NAME : String
  DESCRIPTION : String
  CLIENT_ID : String
  CLIENT_SECRET : String
  REDIRECT_URI : String
  SCOPES : String
  deriving DecidableEq, Repr

/-- The outside world: table `IDP`, the identifiers still to be generated, and
the number of calls made to the database provider and its clients. -/
structure World where
  IDP : List TableRow
  uuids : List String
  calls : Nat
  deriving DecidableEq, Repr

/-- A row as the driver delivers it: lower-case column names, text columns as
`string`. -/
def TableRow.toRow (t : TableRow) : Row :=
  [("idp_id", .str t.IDP_ID), ("name", .str t.NAME), ("description", .str t.DESCRIPTION),
   ("client_id", .str t.CLIENT_ID), ("client_secret", .str t.CLIENT_SECRET),
   ("redirect_uri", .str t.REDIRECT_URI), ("scopes", .str t.SCOPES)]

/-- The two SELECT statements. -/
def Query (q : DBQuery) (args : List GoAny) (w : World) : Except GoError (List Row) × World :=
  let w := { w with calls := w.calls + 1 }
  if q.ID = "IPQ-IDP_MGT-02" then
    match args with
    | [.str id] => (.ok ((w.IDP.filter (fun t => t.IDP_ID = id)).map TableRow.toRow), w)
    | _ => (.error (.new "bad statement arguments"), w)
  else if q.ID = "IPQ-IDP_MGT-03" then
    (.ok (w.IDP.map TableRow.toRow), w)
  else
    (.error (.new "unknown statement"), w)

/-- The INSERT (primary key `IDP_ID`), UPDATE and DELETE statements, with the
number of rows affected. -/
def Execute (q : DBQuery) (args : List GoAny) (w : World) : Except GoError Int × World :=
  let w := { w with calls := w.calls + 1 }
  if q.ID = "IPQ-IDP_MGT-01" then
    match args with
    | [.str a1, .str a2, .str a3, .str a4, .str a5, .str a6, .str a7] =>
      if w.IDP.any (fun t => t.IDP_ID = a1) then
        (.error (.new "duplicate key value violates unique constraint"), w)
      else
        (.ok 1, { w with IDP := w.IDP ++ [⟨a1, a2, a3, a4, a5, a6, a7⟩] })
    | _ => (.error (.new "bad statement arguments"), w)
  else if q.ID = "IPQ-IDP_MGT-04" then
    match args with
    | [.str a1, .str a2, .str a3, .str a4, .str a5, .str a6, .str a7] =>
      (.ok ((w.IDP.filter (fun t => t.IDP_ID = a1)).length : Nat),
       { w with IDP := w.IDP.map (fun t => if t.IDP_ID = a1 then ⟨a1, a2, a3, a4, a5, a6, a7⟩ else t) })
    | _ => (.error (.new "bad statement arguments"), w)
  else if q.ID = "IPQ-IDP_MGT-05" then
    match args with
    | [.str id] =>
      (.ok ((w.IDP.filter (fun t => t.IDP_ID = id)).length : Nat),
       { w with IDP := w.IDP.filter (fun t => t.IDP_ID ≠ id) })
    | _ => (.error (.new "bad statement arguments"), w)
  else
    (.error (.new "unknown statement"), w)

/-- The client of the in-memory table; `closeErr` is what `Close` reports. -/
def client (closeErr : Option GoError) : DBClient World :=
  { Query := Query, Execute := Execute,
    Close := fun w => (closeErr, { w with calls := w.calls + 1 }) }

/-! ### `encoding/json` on a sequence of strings

`json.Marshal` and `json.Unmarshal` as the store applies them to `idp.Scopes`.
Strings are read as bytes: `segment` cuts them into UTF-8 encodings the way
`for range` and `utf8.DecodeRune` do. -/

/-- One step of ranging over the bytes of a string (`utf8.DecodeRuneInString`):
a complete UTF-8 encoding with its bytes, or a single byte that starts none
(`utf8.RuneError` of width 1). -/
inductive Item where
  | rune (bytes : List Char) : Item
  | bad (b : Char) : Item
  deriving DecidableEq, Repr

/-- The byte `c` lies in `lo..hi`. -/
def inRange (c : Char) (lo hi : Nat) : Bool := decide (lo ≤ c.toNat) && decide (c.toNat ≤ hi)

/-- The range of the second byte after the first byte `b0` of an encoding of
three or four bytes: the ranges that shut out overlong forms, surrogates and
values above U+10FFFF. -/
def second (b0 : Char) : Nat × Nat :=
  if b0.toNat = 0xE0 then (0xA0, 0xBF)
  else if b0.toNat = 0xED then (0x80, 0x9F)
  else if b0.toNat = 0xF0 then (0x90, 0xBF)
  else if b0.toNat = 0xF4 then (0x80, 0x8F)
  else (0x80, 0xBF)

/-- The width of the UTF-8 encoding that starts with byte `b0` and goes on in
`t`: 1 to 4, or 0 when there is none. -/
def width (b0 : Char) (t : List Char) : Nat :=
  if b0.toNat < 0x80 then 1
  else if inRange b0 0xC2 0xDF then
    match t with
    | b1 :: _ => if inRange b1 0x80 0xBF then 2 else 0
    | _ => 0
  else if inRange b0 0xE0 0xEF then
    match t with
    | b1 :: b2 :: _ =>
      if inRange b1 (second b0).1 (second b0).2 && inRange b2 0x80 0xBF then 3 else 0
    | _ => 0
  else if inRange b0 0xF0 0xF4 then
    match t with
    | b1 :: b2 :: b3 :: _ =>
      if inRange b1 (second b0).1 (second b0).2 && inRange b2 0x80 0xBF && inRange b3 0x80 0xBF
      then 4 else 0
    | _ => 0
  else 0

/-- The items of a byte string, `skip` bytes of which belong to the item before. -/
def segmentFrom : Nat → List Char → List Item
  | _, [] => []
  | skip + 1, _ :: t => segmentFrom skip t
  | 0, b0 :: t0 =>
    match width b0 t0 with
    | 0 => .bad b0 :: segmentFrom 0 t0
    | w + 1 => .rune (b0 :: t0.take w) :: segmentFrom w t0

/-- The items of a byte string, as `for range` visits them. -/
def segment (cs : List Char) : List Item := segmentFrom 0 cs

/-- Every scope is valid UTF-8. -/
def validUTF8 (s : String) : Bool :=
  (segment s.data).all fun item =>
    match item with
    | .rune _ => true
    | .bad _ => false

/-- The UTF-8 encoding of U+FFFD, `utf8.RuneError`. -/
def replacement : List Char := [Char.ofNat 0xEF, Char.ofNat 0xBF, Char.ofNat 0xBD]

/-- The digit of `n` in `"0123456789abcdef"`. -/
def hexDigit (n : Nat) : Char := ("0123456789abcdef".data).getD n '0'

/-- What `json.Marshal` writes inside a string literal for one item: HTML-safe
escaping of ASCII, `\u2028` and `\u2029`, `\ufffd` for a byte that is not
UTF-8, every other encoding as it is.  Backspace and form feed are written
`\b` and `\f`, as Go 1.22 and later do (earlier versions write `\u0008` and
`\u000c`, which read back alike). -/
def escapeItem : Item → List Char
  | .bad _ => ['\\', 'u', 'f', 'f', 'f', 'd']
  | .rune [c] =>
    if c = '"' ∨ c = '\\' then ['\\', c]
    else if c.toNat = 8 then ['\\', 'b']
    else if c.toNat = 12 then ['\\', 'f']
    else if c.toNat = 10 then ['\\', 'n']
    else if c.toNat = 13 then ['\\', 'r']
    else if c.toNat = 9 then ['\\', 't']
    else if c.toNat < 0x20 ∨ c = '<' ∨ c = '>' ∨ c = '&' then
      ['\\', 'u', '0', '0', hexDigit (c.toNat / 16), hexDigit (c.toNat % 16)]
    else [c]
  | .rune bs =>
    if bs = [Char.ofNat 0xE2, Char.ofNat 0x80, Char.ofNat 0xA8] then ['\\', 'u', '2', '0', '2', '8']
    else if bs = [Char.ofNat 0xE2, Char.ofNat 0x80, Char.ofNat 0xA9] then
      ['\\', 'u', '2', '0', '2', '9']
    else bs

/-- The bytes an item stands for. -/
def Item.bytes : Item → List Char
  | .rune bytes => bytes
  | .bad b => [b]

/-- The bytes a run of items stands for. -/
def Item.join : List Item → List Char
  | [] => []
  | item :: items => item.bytes ++ Item.join items

/-- A complete encoding: the bytes of the item are one UTF-8 encoding. -/
def Item.whole : Item → Prop
  | .rune (b0 :: t) => width b0 t = t.length + 1
  | _ => False

/-- What `json.Marshal` writes for a run of items. -/
def escapeItems : List Item → List Char
  | [] => []
  | item :: items => escapeItem item ++ escapeItems items

/-- The inside of the string literal `json.Marshal` writes for a string. -/
def escape (cs : List Char) : List Char := escapeItems (segment cs)

/-- The elements of a JSON array of strings, comma separated. -/
def members : List String → List Char
  | [] => []
  | [x] => '"' :: escape x.data ++ ['"']
  | x :: y :: xs => '"' :: escape x.data ++ '"' :: ',' :: members (y :: xs)

/-- `json.Marshal` on a `[]string`: `null` for the nil slice (the empty list),
else the array of the escaped strings.  It never fails. -/
def marshal (xs : List String) : Except GoError String :=
  match xs with
  | [] => .ok "null"
  | _ :: _ => .ok (String.mk ('[' :: members xs ++ [']']))

/-- The UTF-8 encoding of the code point `v` (`utf8.EncodeRune`). -/
def encodeRune (v : Nat) : List Char :=
  if v < 0x80 then [Char.ofNat v]
  else if v < 0x800 then [Char.ofNat (0xC0 + v / 64), Char.ofNat (0x80 + v % 64)]
  else if v < 0x10000 then
    [Char.ofNat (0xE0 + v / 4096), Char.ofNat (0x80 + v / 64 % 64), Char.ofNat (0x80 + v % 64)]
  else
    [Char.ofNat (0xF0 + v / 262144), Char.ofNat (0x80 + v / 4096 % 64),
     Char.ofNat (0x80 + v / 64 % 64), Char.ofNat (0x80 + v % 64)]

/-- The value of a hexadecimal digit, in either case. -/
def hexVal (c : Char) : Option Nat :=
  if inRange c 48 57 then some (c.toNat - 48)
  else if inRange c 97 102 then some (c.toNat - 87)
  else if inRange c 65 70 then some (c.toNat - 55)
  else none

/-- JSON white space. -/
def isSpace (c : Char) : Bool := c = ' ' || c.toNat = 9 || c.toNat = 10 || c.toNat = 13

/-- Where the reader of `json.Unmarshal` into a `[]string` stands. -/
inductive Scan where
  /-- before the value -/
  | start : Scan
  /-- inside the value `null`, `k` letters read -/
  | nullTop (k : Nat) : Scan
  /-- after `[`, before any element -/
  | opened : Scan
  /-- inside the element `null`, `k` letters read -/
  | nullElem (acc : List String) (k : Nat) : Scan
  /-- inside a string literal -/
  | inString (acc : List String) (cur : List Char) : Scan
  /-- after a backslash; `hi` is a high surrogate read just before -/
  | escaped (acc : List String) (cur : List Char) (hi : Option Nat) : Scan
  /-- after `\u` and `k` digits of value `v` -/
  | hex (acc : List String) (cur : List Char) (hi : Option Nat) (k v : Nat) : Scan
  /-- after the escape of the high surrogate `hi` -/
  | surrogate (acc : List String) (cur : List Char) (hi : Nat) : Scan
  /-- after an element -/
  | afterValue (acc : List String) : Scan
  /-- after a comma -/
  | afterComma (acc : List String) : Scan
  /-- after the value -/
  | closed (acc : List String) : Scan
  /-- not the JSON of a sequence of strings -/
  | failed : Scan
  deriving DecidableEq, Repr

namespace Scan

/-- A `\uXXXX` escape of value `v` with no surrogate before it: a high
surrogate waits for its pair, a low one is replaced by U+FFFD. -/
def unicode (acc : List String) (cur : List Char) (v : Nat) : Scan :=
  if 0xD800 ≤ v ∧ v ≤ 0xDBFF then .surrogate acc cur v
  else if 0xDC00 ≤ v ∧ v ≤ 0xDFFF then .inString acc (cur ++ replacement)
  else .inString acc (cur ++ encodeRune v)

/-- The end of a `\uXXXX` escape of value `v`. -/
def unicodeAfter (acc : List String) (cur : List Char) (hi : Option Nat) (v : Nat) : Scan :=
  match hi with
  | none => unicode acc cur v
  | some h =>
    if 0xDC00 ≤ v ∧ v ≤ 0xDFFF then
      .inString acc (cur ++ encodeRune (0x10000 + (h - 0xD800) * 0x400 + (v - 0xDC00)))
    else unicode acc (cur ++ replacement) v

/-- The character after a backslash. -/
def unescape (acc : List String) (cur : List Char) (c : Char) : Scan :=
  if c = '"' ∨ c = '\\' ∨ c = '/' then .inString acc (cur ++ [c])
  else if c = 'b' then .inString acc (cur ++ [Char.ofNat 8])
  else if c = 'f' then .inString acc (cur ++ [Char.ofNat 12])
  else if c = 'n' then .inString acc (cur ++ [Char.ofNat 10])
  else if c = 'r' then .inString acc (cur ++ [Char.ofNat 13])
  else if c = 't' then .inString acc (cur ++ [Char.ofNat 9])
  else if c = 'u' then .hex acc cur none 0 0
  else .failed

/-- An ASCII byte inside a string literal. -/
def inside (acc : List String) (cur : List Char) (c : Char) : Scan :=
  if c = '"' then .afterValue (acc ++ [String.mk cur])
  else if c = '\\' then .escaped acc cur none
  else if c.toNat < 0x20 then .failed
  else .inString acc (cur ++ [c])

/-- The letter of `null` after `k` letters. -/
def nullLetter (k : Nat) : Char := if k = 1 then 'u' else 'l'

/-- One ASCII byte of input. -/
def stepChar : Scan → Char → Scan
  | .start, c =>
    if isSpace c then .start else if c = '[' then .opened
    else if c = 'n' then .nullTop 1 else .failed
  | .nullTop k, c =>
    if c = nullLetter k then (if k = 3 then .closed [] else .nullTop (k + 1)) else .failed
  | .opened, c =>
    if isSpace c then .opened else if c = ']' then .closed []
    else if c = '"' then .inString [] [] else if c = 'n' then .nullElem [] 1 else .failed
  | .nullElem acc k, c =>
    if c = nullLetter k then (if k = 3 then .afterValue (acc ++ [""]) else .nullElem acc (k + 1))
    else .failed
  | .inString acc cur, c => inside acc cur c
  | .escaped acc cur none, c => unescape acc cur c
  | .escaped acc cur (some h), c =>
    if c = 'u' then .hex acc cur (some h) 0 0 else unescape acc (cur ++ replacement) c
  | .hex acc cur hi k v, c =>
    match hexVal c with
    | none => .failed
    | some d => if k = 3 then unicodeAfter acc cur hi (v * 16 + d) else .hex acc cur hi (k + 1) (v * 16 + d)
  | .surrogate acc cur h, c =>
    if c = '\\' then .escaped acc cur (some h) else inside acc (cur ++ replacement) c
  | .afterValue acc, c =>
    if isSpace c then .afterValue acc else if c = ',' then .afterComma acc
    else if c = ']' then .closed acc else .failed
  | .afterComma acc, c =>
    if isSpace c then .afterComma acc else if c = '"' then .inString acc []
    else if c = 'n' then .nullElem acc 1 else .failed
  | .closed acc, c => if isSpace c then .closed acc else .failed
  | .failed, _ => .failed

/-- Bytes that are no ASCII, decoded to `bytes`: they can only stand inside a
string literal. -/
def stepBytes : Scan → List Char → Scan
  | .inString acc cur, bytes => .inString acc (cur ++ bytes)
  | .surrogate acc cur _, bytes => .inString acc (cur ++ replacement ++ bytes)
  | _, _ => .failed

/-- One item of input. -/
def step (st : Scan) : Item → Scan
  | .rune [c] => if c.toNat < 0x80 then stepChar st c else stepBytes st [c]
  | .rune bytes => stepBytes st bytes
  | .bad _ => stepBytes st replacement

end Scan

/-- `json.Unmarshal` into a nil `[]string`: white space, then `null` or an
array whose elements are strings or `null`, then white space; every other
text, valid JSON or not, is an error. -/
def unmarshal (text : String) : Except GoError (List String) :=
  match (segment text.data).foldl Scan.step .start with
  | .closed acc => .ok acc
  | _ => .error (.new "json: cannot unmarshal into a sequence of strings")

/-- The reference environment.  Request bodies are not parsed: `decode` gives
the record a body stands for. -/
def env (closeErr : Option GoError) (decode : String → Except GoError IdP)
    (encode : JSONBody → Except GoError String) : Env World :=
  { GetDBClient := fun _ w => (.ok (client closeErr), { w with calls := w.calls + 1 }),
    GenerateUUID := fun w =>
      match w.uuids with
      | [] => ("", w)
      | u :: us => (u, { w with uuids := us }),
    Marshal := marshal,
    Unmarshal := unmarshal,
    Decode := decode,
    Encode := encode }

/-- The record of the integration tests, with a client-supplied id. -/
def github : IdP :=
  ⟨"client-sent", "Github", "Login with Github", "client1", "secret1",
   "https://localhost:8090/flow/authn", ["user:email", "read:user"]⟩

/-- An empty table and two identifiers to hand out. -/
def emptyWorld : World := ⟨[], ["u1", "u2"], 0⟩

/-- The reference environment with a JSON layer that accepts no request body
and encodes no response. -/
def plain : Env World := env none (fun _ => .error (.new "no body")) (fun _ => .error (.new "no encoder"))

/-- A table that breaks the primary key: two rows with id `a`. -/
def twins : World :=
  ⟨[⟨"a", "n", "d", "c", "x", "r", "[]"⟩, ⟨"a", "n2", "d", "c", "x", "r", "[]"⟩], [], 0⟩

/-- A table holding the record of the integration tests under id `b`. -/
def stored : World :=
  ⟨[⟨"b", "Github", "Login with Github", "client1", "secret1",
     "https://localhost:8090/flow/authn", "[\"user:email\",\"read:user\"]"⟩], ["u1"], 0⟩

/-- A table with two records, `a` and `b`. -/
def pair : World :=
  ⟨[⟨"a", "Google", "Google User Login", "client2", "secret2",
     "https://localhost:8090/flow/authn2", "[]"⟩,
    ⟨"b", "Github", "Login with Github", "client1", "secret1",
     "https://localhost:8090/flow/authn", "[]"⟩], [], 0⟩

/-- An update addressed to `a` whose record carries id `b`. -/
def updateOfB : IdP :=
  ⟨"b", "Github", "Github User Login", "client3", "secret3",
   "https://localhost:8090/flow/authn3", ["user:email"]⟩

/-- A stand-in for the JSON encoder: the text lists the member names of an
object and the number of elements of an array. -/
def encodeKeys : JSONBody → Except GoError String
  | .object o => .ok (String.intercalate "," (o.map Prod.fst))
  | .array os => .ok (toString os.length)

/-- A stand-in for the JSON decoder of request bodies: every body stands for
the record `updateOfB`. -/
def decodeUpdate : String → Except GoError IdP := fun _ => .ok updateOfB

/-- The reference environment with the two stand-ins as its JSON layer. -/
def web : Env World := env none decodeUpdate encodeKeys

/-- The environment `web` with a serialiser that fails.  `json.Marshal` does not
fail on a sequence of strings: this environment is not one the program meets
with that type of scopes, it only drives the store through the branch that
follows a failed `json.Marshal`. -/
def unserialisable : Env World :=
  { web with Marshal := fun _ => .error (.new "json: unsupported value") }

/-- The environment `web` whose database cannot be reached. -/
def offline : Env World :=
  { web with
    GetDBClient := fun _ w => (.error (.new "connection refused"), { w with calls := w.calls + 1 }) }

/-- The record of the integration tests with one scope, the single byte `0xff`,
which is no UTF-8. -/
def latin : IdP :=
  ⟨"client-sent", "Github", "Login with Github", "client1", "secret1",
   "https://localhost:8090/flow/authn", ["\xff"]⟩

/-- The environment `web` whose clients fail to close. -/
def leaky : Env World := env (some (.new "close failed")) decodeUpdate encodeKeys

/-- The environment `web` with an encoder that fails on every value. -/
def mute : Env World := env none decodeUpdate (fun _ => .error (.new "json: unsupported type"))

end Ref

end Thunder

namespace Thunder

/-! ## Properties of the persistence adapter -/

namespace store

/-- A row that carries a record decodes to that record. -/
theorem buildIdPFromResultRow_of_carries {σ : Type} (env : Env σ) (row : Row) (idp : IdP)
    (scopes : String) (hrow : Carries row idp scopes)
    (hunm : env.Unmarshal scopes = .ok idp.Scopes) :
    buildIdPFromResultRow env row = (idp, none) := by
  obtain ⟨h1, h2, h3, h4, h5, h6, h7⟩ := hrow
  simp [buildIdPFromResultRow, h1, h2, h3, h4, h5, h6, h7, hunm]

/-- A failed decoding returns the zero record. -/
theorem buildIdPFromResultRow_zero {σ : Type} (env : Env σ) (row : Row) (err : GoError)
    (h : (buildIdPFromResultRow env row).2 = some err) :
    (buildIdPFromResultRow env row).1 = IdP.zero := by
  unfold buildIdPFromResultRow at h ⊢
  repeat' split
  all_goals first | rfl | simp_all

/-- `GetIdP` once the client is acquired and the select has returned `rows`. -/
theorem GetIdP_of_rows {σ : Type} (env : Env σ) (c : DBClient σ) (id : String) (s s1 s2 : σ)
    (rows : List Row) (hcli : env.GetDBClient "identity" s = (.ok c, s1))
    (hsel : c.Query QueryGetIdPByIdPID [.str id] s1 = (.ok rows, s2)) :
    GetIdP env id s =
      ((match rows with
        | [] => (IdP.zero, some .ErrIdPNotFound)
        | [row] =>
          ((buildIdPFromResultRow env row).1,
            (buildIdPFromResultRow env row).2.map (.wrap "failed to build idp from result row"))
        | _ :: _ :: _ =>
          (IdP.zero, some (.new ("unexpected number of results: " ++ toString rows.length)))),
       (c.Close s2).2) := by
  unfold GetIdP
  rw [hcli]
  simp only [closing, hsel]
  match rows with
  | [] => simp
  | [row] =>
    simp only [List.length_singleton, List.head?_cons]
    cases hb : (buildIdPFromResultRow env row).2 with
    | none =>
      have : buildIdPFromResultRow env row = ((buildIdPFromResultRow env row).1, none) := by
        rw [← hb]
      rw [this]; simp
    | some err =>
      have hz := buildIdPFromResultRow_zero env row err hb
      have : buildIdPFromResultRow env row = (IdP.zero, some err) := by
        rw [← hb, ← hz]
      rw [this]; simp
  | _ :: _ :: _ => simp

/-- What a successful list decoding says about the record and the row. -/
theorem buildIdPForListFromResultRow_ok {σ : Type} (env : Env σ) (row : Row) (idp : IdP)
    (h : buildIdPForListFromResultRow env row = (idp, none)) :
    idp.ClientSecret = "" ∧ idp.RedirectURI = "" ∧
    row.getString "idp_id" = some idp.ID ∧ row.getString "name" = some idp.Name ∧
    row.getString "description" = some idp.Description ∧
    row.getString "client_id" = some idp.ClientID ∧
    ∃ text, scopesColumn row = some text ∧ env.Unmarshal text = .ok idp.Scopes := by
  rcases h1 : row.getString "idp_id" with _ | a1
  · simp [buildIdPForListFromResultRow, h1] at h
  rcases h2 : row.getString "name" with _ | a2
  · simp [buildIdPForListFromResultRow, h1, h2] at h
  rcases h3 : row.getString "description" with _ | a3
  · simp [buildIdPForListFromResultRow, h1, h2, h3] at h
  rcases h4 : row.getString "client_id" with _ | a4
  · simp [buildIdPForListFromResultRow, h1, h2, h3, h4] at h
  rcases h5 : scopesColumn row with _ | text
  · simp [buildIdPForListFromResultRow, h1, h2, h3, h4, h5] at h
  rcases h6 : env.Unmarshal text with _ | sc
  · simp [buildIdPForListFromResultRow, h1, h2, h3, h4, h5, h6] at h
  simp only [buildIdPForListFromResultRow, h1, h2, h3, h4, h5, h6, Prod.mk.injEq, and_true] at h
  subst h
  exact ⟨rfl, rfl, rfl, rfl, rfl, rfl, text, rfl, h6⟩

/-- The list loop only ever appends records decoded by the list decoder. -/
theorem GetIdPList.loop_mem {σ : Type} (env : Env σ) (P : IdP → Prop)
    (hP : ∀ row idp, buildIdPForListFromResultRow env row = (idp, none) → P idp) :
    ∀ (rows : List Row) (acc : List IdP), (∀ idp ∈ acc, P idp) →
      ∀ idp ∈ (GetIdPList.loop env rows acc).1, P idp := by
  intro rows
  induction rows with
  | nil => intro acc hacc; simpa [GetIdPList.loop] using hacc
  | cons row rest ih =>
    intro acc hacc
    unfold GetIdPList.loop
    split
    · simp
    · rename_i idp hb
      apply ih
      intro x hx
      rcases List.mem_append.mp hx with hx | hx
      · exact hacc x hx
      · rw [List.mem_singleton] at hx
        subst hx
        exact hP row _ hb

/-- Every record of `GetIdPList` was decoded by the list decoder. -/
theorem GetIdPList_mem {σ : Type} (env : Env σ) (P : IdP → Prop)
    (hP : ∀ row idp, buildIdPForListFromResultRow env row = (idp, none) → P idp) (s : σ) :
    ∀ idp ∈ (GetIdPList env s).1.1, P idp := by
  unfold GetIdPList
  split
  · simp
  · simp only [closing]
    split
    · simp
    · exact GetIdPList.loop_mem env P hP _ [] (by simp)

/-- The list loop when every row left decodes: one record per row, in order,
after the records appended so far. -/
theorem GetIdPList.loop_all {σ : Type} (env : Env σ) :
    ∀ (rows : List Row) (acc : List IdP),
      (∀ row ∈ rows, (buildIdPForListFromResultRow env row).2 = none) →
      GetIdPList.loop env rows acc =
        (acc ++ rows.map (fun row => (buildIdPForListFromResultRow env row).1), none) := by
  intro rows
  induction rows with
  | nil => intro acc _; simp [GetIdPList.loop]
  | cons row rest ih =>
    intro acc hall
    have hrow := hall row (List.mem_cons_self _ _)
    have hb : buildIdPForListFromResultRow env row =
        ((buildIdPForListFromResultRow env row).1, none) := by rw [← hrow]
    unfold GetIdPList.loop
    rw [hb]
    simp only
    rw [ih _ (fun r hr => hall r (List.mem_cons_of_mem _ hr))]
    simp

/-- The list loop when some row left does not decode: no record, and the error
of a row wrapped. -/
theorem GetIdPList.loop_some {σ : Type} (env : Env σ) :
    ∀ (rows : List Row) (acc : List IdP),
      (∃ row ∈ rows, (buildIdPForListFromResultRow env row).2 ≠ none) →
      ∃ err, GetIdPList.loop env rows acc =
        ([], some (.wrap "failed to build idp from result row" err)) := by
  intro rows
  induction rows with
  | nil => intro acc h; obtain ⟨_, hm, _⟩ := h; simp at hm
  | cons row rest ih =>
    intro acc h
    unfold GetIdPList.loop
    rcases hb : buildIdPForListFromResultRow env row with ⟨idp, _ | err⟩
    · simp only
      apply ih
      obtain ⟨r, hm, hr⟩ := h
      rcases List.mem_cons.mp hm with h1 | h1
      · subst h1
        rw [hb] at hr
        exact absurd rfl hr
      · exact ⟨r, h1, hr⟩
    · exact ⟨err, rfl⟩

/-- Both decoders reject a row whose scopes column is neither text nor bytes. -/
theorem scopesColumn_none_rejected {σ : Type} (env : Env σ) (row : Row)
    (h : scopesColumn row = none) :
    (∃ err, buildIdPFromResultRow env row = (IdP.zero, some err)) ∧
    (∃ err, buildIdPForListFromResultRow env row = (IdP.zero, some err)) := by
  constructor
  · unfold buildIdPFromResultRow
    rw [h]
    repeat' split
    all_goals first | exact ⟨_, rfl⟩ | simp_all
  · unfold buildIdPForListFromResultRow
    rw [h]
    repeat' split
    all_goals first | exact ⟨_, rfl⟩ | simp_all

/-- The scopes column is rejected exactly when it holds neither a string nor
bytes. -/
theorem scopesColumn_eq_none (row : Row)
    (h1 : ∀ t, row.get "scopes" ≠ some (.str t)) (h2 : ∀ t, row.get "scopes" ≠ some (.bytes t)) :
    scopesColumn row = none := by
  unfold scopesColumn
  split
  · rename_i v hv; exact absurd hv (h1 v)
  · rename_i v hv; exact absurd hv (h2 v)
  · rfl

/-- A column that is missing or not a string fails the assertion `.(string)`. -/
theorem getString_eq_none (row : Row) (key : String)
    (h : ∀ t, row.get key ≠ some (.str t)) : row.getString key = none := by
  unfold Row.getString
  split
  · rename_i v hv; exact absurd hv (h v)
  · rfl

end store

/-! ## `encoding/json` on a sequence of strings -/

namespace Ref

/-- Skipping `k` bytes is dropping them. -/
theorem segmentFrom_drop (k : Nat) (cs : List Char) :
    segmentFrom k cs = segment (cs.drop k) := by
  induction cs generalizing k with
  | nil => cases k <;> rfl
  | cons b t ih =>
    cases k with
    | zero => rfl
    | succ k => simpa [segmentFrom] using ih k

/-- The first item of a byte string and the items after it. -/
theorem segment_cons (b0 : Char) (t0 : List Char) :
    segment (b0 :: t0) =
      match width b0 t0 with
      | 0 => .bad b0 :: segment t0
      | w + 1 => .rune (b0 :: t0.take w) :: segment (t0.drop w) := by
  show segmentFrom 0 (b0 :: t0) = _
  unfold segmentFrom
  split
  · rfl
  · rw [segmentFrom_drop]

/-- The width of an encoding is decided by its own bytes. -/
theorem width_local (b0 : Char) (t0 : List Char) (w : Nat) (h : width b0 t0 = w + 1) :
    w ≤ t0.length ∧ ∀ r, width b0 (t0.take w ++ r) = w + 1 := by
  by_cases h1 : b0.toNat < 0x80
  · simp only [width, h1, if_true] at h
    have : w = 0 := by omega
    subst this
    exact ⟨by omega, fun r => by simp only [width, h1, if_true]⟩
  rcases h2 : inRange b0 0xC2 0xDF with _ | _
  swap
  · simp only [width, h1, h2, if_true, if_false] at h
    match t0, h with
    | [], h => simp at h
    | b1 :: t1, h =>
      rcases c1 : inRange b1 0x80 0xBF with _ | _
      · simp [c1] at h
      · simp only [c1, if_true] at h
        have : w = 1 := by omega
        subst this
        exact ⟨by simp, fun r => by simp [width, h1, h2, c1]⟩
  rcases h3 : inRange b0 0xE0 0xEF with _ | _
  swap
  · simp only [width, h1, h2, h3, if_true, if_false, Bool.false_eq_true] at h
    match t0, h with
    | [], h => simp at h
    | [_], h => simp at h
    | b1 :: b2 :: t2, h =>
      rcases c1 : (inRange b1 (second b0).1 (second b0).2 && inRange b2 0x80 0xBF) with _ | _
      · simp [c1] at h
      · simp only [c1, if_true] at h
        have : w = 2 := by omega
        subst this
        exact ⟨by simp, fun r => by simp [width, h1, h2, h3, c1]⟩
  rcases h4 : inRange b0 0xF0 0xF4 with _ | _
  swap
  · simp only [width, h1, h2, h3, h4, if_true, if_false, Bool.false_eq_true] at h
    match t0, h with
    | [], h => simp at h
    | [_], h => simp at h
    | [_, _], h => simp at h
    | b1 :: b2 :: b3 :: t3, h =>
      rcases c1 : (inRange b1 (second b0).1 (second b0).2 && inRange b2 0x80 0xBF
          && inRange b3 0x80 0xBF) with _ | _
      · simp [c1] at h
      · simp only [c1, if_true] at h
        have : w = 3 := by omega
        subst this
        exact ⟨by simp, fun r => by simp [width, h1, h2, h3, h4, c1]⟩
  simp [width, h1, h2, h3, h4] at h

/-- An ASCII byte is an item of its own. -/
theorem segment_ascii (c : Char) (rest : List Char) (h : c.toNat < 0x80) :
    segment (c :: rest) = .rune [c] :: segment rest := by
  have hw : width c rest = 1 := by simp only [width, h, if_true]
  rw [segment_cons, hw]
  simp

/-- A run of ASCII bytes is a run of items. -/
theorem segment_ascii_append (cs rest : List Char) (h : ∀ c ∈ cs, c.toNat < 0x80) :
    segment (cs ++ rest) = cs.map (fun c => Item.rune [c]) ++ segment rest := by
  induction cs with
  | nil => rfl
  | cons c cs ih =>
    rw [List.cons_append, segment_ascii _ _ (h c (List.mem_cons_self _ _)),
      ih (fun x hx => h x (List.mem_cons_of_mem _ hx))]
    rfl

/-- A complete encoding is an item of its own. -/
theorem segment_whole (b0 : Char) (t rest : List Char) (h : width b0 t = t.length + 1) :
    segment (b0 :: t ++ rest) = .rune (b0 :: t) :: segment rest := by
  have hl := (width_local b0 t t.length h).2 rest
  rw [List.take_length] at hl
  rw [List.cons_append, segment_cons, hl]
  simp

/-- The items of a byte string are its bytes, cut into complete encodings and
single bytes. -/
theorem segment_spec (n : Nat) :
    ∀ cs : List Char, cs.length ≤ n →
      Item.join (segment cs) = cs ∧
      ∀ bytes, Item.rune bytes ∈ segment cs → (Item.rune bytes).whole := by
  induction n with
  | zero =>
    intro cs h
    have : cs = [] := List.length_eq_zero.mp (by omega)
    subst this
    exact ⟨rfl, fun _ hm => by simp [segment, segmentFrom] at hm⟩
  | succ n ih =>
    intro cs h
    match cs, h with
    | [], _ => exact ⟨rfl, fun _ hm => by simp [segment, segmentFrom] at hm⟩
    | b0 :: t0, h =>
      rw [segment_cons]
      rcases hw : width b0 t0 with _ | w
      · have hrec := ih t0 (by simpa using h)
        refine ⟨by simp [Item.join, Item.bytes, hrec.1], ?_⟩
        intro bytes hm
        simp only [List.mem_cons] at hm
        rcases hm with hm | hm
        · cases hm
        · exact hrec.2 bytes hm
      · obtain ⟨hle, hloc⟩ := width_local b0 t0 w hw
        have hrec := ih (t0.drop w) (by simp at h ⊢; omega)
        refine ⟨by simp [Item.join, Item.bytes, hrec.1], ?_⟩
        intro bytes hm
        simp only [List.mem_cons, Item.rune.injEq] at hm
        rcases hm with hm | hm
        · subst hm
          have := hloc []
          simp only [List.append_nil] at this
          simp [Item.whole, this, List.length_take, hle]
        · exact hrec.2 bytes hm

/-- Reading a run of ASCII bytes is reading them one by one. -/
theorem run_ascii (st : Scan) (cs tail : List Char) (h : ∀ c ∈ cs, c.toNat < 0x80) :
    (segment (cs ++ tail)).foldl Scan.step st =
      (segment tail).foldl Scan.step (cs.foldl Scan.stepChar st) := by
  rw [segment_ascii_append cs tail h, List.foldl_append, List.foldl_map]
  congr 1
  induction cs generalizing st with
  | nil => rfl
  | cons c cs ih =>
    have hc : c.toNat < 0x80 := h c (List.mem_cons_self _ _)
    simp only [List.foldl_cons, Scan.step, hc, if_true]
    exact ih _ (fun x hx => h x (List.mem_cons_of_mem _ hx))

/-- A hexadecimal digit is ASCII and has the value it was written for. -/
theorem hexDigit_spec : ∀ k, k < 16 → (hexDigit k).toNat < 0x80 ∧ hexVal (hexDigit k) = some k := by
  decide

/-- An encoding of one byte is an ASCII byte. -/
theorem width_one (b0 : Char) (h : width b0 [] = 1) : b0.toNat < 0x80 := by
  by_contra h1
  simp only [width, h1, if_false] at h
  split at h
  · simp at h
  split at h
  · simp at h
  split at h
  · simp at h
  · simp at h

/-- Reading back what was written for one ASCII byte inside a string. -/
theorem run_escape_ascii (acc : List String) (cur tail : List Char) (c : Char)
    (hc : c.toNat < 0x80) :
    (segment (escapeItem (.rune [c]) ++ tail)).foldl Scan.step (.inString acc cur) =
      (segment tail).foldl Scan.step (.inString acc (cur ++ [c])) := by
  simp only [escapeItem]
  split_ifs with h1 h2 h3 h4 h5 h6 h7
  · rw [run_ascii _ _ _ (by
      intro x hx
      simp only [List.mem_cons, List.mem_singleton, List.not_mem_nil, or_false] at hx
      rcases hx with rfl | rfl
      · decide
      · exact hc)]
    rcases h1 with rfl | rfl <;> rfl
  · rw [run_ascii _ _ _ (by decide)]
    have : c = Char.ofNat 8 := by rw [← h2, Char.ofNat_toNat]
    subst this
    rfl
  · rw [run_ascii _ _ _ (by decide)]
    have : c = Char.ofNat 12 := by rw [← h3, Char.ofNat_toNat]
    subst this
    rfl
  · rw [run_ascii _ _ _ (by decide)]
    have : c = Char.ofNat 10 := by rw [← h4, Char.ofNat_toNat]
    subst this
    rfl
  · rw [run_ascii _ _ _ (by decide)]
    have : c = Char.ofNat 13 := by rw [← h5, Char.ofNat_toNat]
    subst this
    rfl
  · rw [run_ascii _ _ _ (by decide)]
    have : c = Char.ofNat 9 := by rw [← h6, Char.ofNat_toNat]
    subst this
    rfl
  · have hd1 := hexDigit_spec (c.toNat / 16) (by omega)
    have hd2 := hexDigit_spec (c.toNat % 16) (by omega)
    rw [run_ascii _ _ _ (by
      intro x hx
      simp only [List.mem_cons, List.mem_singleton, List.not_mem_nil, or_false] at hx
      rcases hx with rfl | rfl | rfl | rfl | rfl | rfl
      · decide
      · decide
      · decide
      · decide
      · exact hd1.1
      · exact hd2.1)]
    have hv : (0 * 16 + 0) * 16 + c.toNat / 16 = c.toNat / 16 := by omega
    have hn : c.toNat / 16 * 16 + c.toNat % 16 = c.toNat := by omega
    have h0 : hexVal '0' = some 0 := by decide
    simp [List.foldl, Scan.stepChar, Scan.inside, Scan.unescape, h0, hd1.2, hd2.2,
      Scan.unicodeAfter, Scan.unicode, hn, encodeRune, hc, Char.ofNat_toNat]
    rw [if_neg (by omega), if_neg (by omega)]
  · rw [run_ascii _ _ _ (by simpa using hc)]
    have q1 : c ≠ '"' := fun h => h1 (Or.inl h)
    have q2 : c ≠ '\\' := fun h => h1 (Or.inr h)
    have q3 : ¬ c.toNat < 0x20 := fun h => h7 (Or.inl h)
    simp [List.foldl, Scan.stepChar, Scan.inside, q1, q2, q3]

/-- Reading back what was written for one complete encoding inside a string. -/
theorem run_escape_whole (acc : List String) (cur tail : List Char) (b0 : Char) (t : List Char)
    (h : width b0 t = t.length + 1) :
    (segment (escapeItem (.rune (b0 :: t)) ++ tail)).foldl Scan.step (.inString acc cur) =
      (segment tail).foldl Scan.step (.inString acc (cur ++ b0 :: t)) := by
  match t, h with
  | [], h => exact run_escape_ascii acc cur tail b0 (width_one b0 h)
  | b1 :: t, h =>
    simp only [escapeItem]
    split_ifs with h1 h2
    · rw [h1, run_ascii _ _ _ (by decide)]
      rfl
    · rw [h2, run_ascii _ _ _ (by decide)]
      rfl
    · rw [segment_whole b0 (b1 :: t) tail h]
      rfl

/-- Reading back the string literal written for a run of complete encodings. -/
theorem run_escapeItems (items : List Item) :
    ∀ (acc : List String) (cur tail : List Char), (∀ item ∈ items, item.whole) →
      (segment (escapeItems items ++ '"' :: tail)).foldl Scan.step (.inString acc cur) =
        (segment tail).foldl Scan.step (.afterValue (acc ++ [String.mk (cur ++ Item.join items)])) := by
  induction items with
  | nil =>
    intro acc cur tail _
    simp only [escapeItems, List.nil_append, Item.join, List.append_nil]
    rw [segment_ascii _ _ (by decide)]
    rfl
  | cons item items ih =>
    intro acc cur tail hall
    have hitem := hall item (List.mem_cons_self _ _)
    match item, hitem with
    | .rune (b0 :: t), hitem =>
      simp only [escapeItems, List.append_assoc]
      rw [run_escape_whole acc cur _ b0 t hitem, ih _ _ _ (fun x hx => hall x (List.mem_cons_of_mem _ hx))]
      simp [Item.join, Item.bytes]

/-- Reading back the string literal written for a string of valid UTF-8. -/
theorem run_quote (x : String) (hx : validUTF8 x = true) (acc : List String) (tail : List Char) :
    (segment (escape x.data ++ '"' :: tail)).foldl Scan.step (.inString acc []) =
      (segment tail).foldl Scan.step (.afterValue (acc ++ [x])) := by
  obtain ⟨hjoin, hwhole⟩ := segment_spec x.data.length x.data (le_refl _)
  have hall : ∀ item ∈ segment x.data, item.whole := by
    intro item hm
    match item, hm with
    | .rune bytes, hm => exact hwhole bytes hm
    | .bad b, hm =>
      have := List.all_eq_true.mp hx _ hm
      simp at this
  rw [escape, run_escapeItems _ acc [] tail hall, hjoin]
  rfl

/-- Reading back the elements written for a non-empty sequence of strings. -/
theorem run_members (x : String) (xs : List String) :
    ∀ (st : Scan) (acc : List String) (tail : List Char),
      Scan.stepChar st '"' = .inString acc [] → (∀ y ∈ x :: xs, validUTF8 y = true) →
      (segment (members (x :: xs) ++ tail)).foldl Scan.step st =
        (segment tail).foldl Scan.step (.afterValue (acc ++ x :: xs)) := by
  induction xs generalizing x with
  | nil =>
    intro st acc tail hst hv
    simp only [members, List.cons_append, List.append_assoc, List.nil_append]
    rw [segment_ascii _ _ (by decide)]
    simp only [List.foldl_cons, Scan.step, show ('"' : Char).toNat < 0x80 by decide, if_true, hst]
    rw [run_quote x (hv x (List.mem_cons_self _ _))]
  | cons y ys ih =>
    intro st acc tail hst hv
    simp only [members, List.cons_append, List.append_assoc]
    rw [segment_ascii _ _ (by decide)]
    simp only [List.foldl_cons, Scan.step, show ('"' : Char).toNat < 0x80 by decide, if_true, hst]
    rw [run_quote x (hv x (List.mem_cons_self _ _)), segment_ascii _ _ (by decide)]
    simp only [List.foldl_cons, Scan.step, show (',' : Char).toNat < 0x80 by decide, if_true]
    have hcomma : Scan.stepChar (.afterValue (acc ++ [x])) ',' = .afterComma (acc ++ [x]) := rfl
    rw [hcomma, ih y (.afterComma (acc ++ [x])) (acc ++ [x]) tail rfl
      (fun z hz => hv z (List.mem_cons_of_mem _ hz))]
    simp

/-- The model of `encoding/json` reads back every sequence of strings of valid
UTF-8 it wrote. -/
theorem unmarshal_marshal (xs : List String) (hv : ∀ x ∈ xs, validUTF8 x = true) :
    ∃ text, marshal xs = .ok text ∧ unmarshal text = .ok xs := by
  match xs, hv with
  | [], _ => exact ⟨"null", rfl, rfl⟩
  | x :: xs, hv =>
    refine ⟨_, rfl, ?_⟩
    have hall : (segment ('[' :: members (x :: xs) ++ [']'])).foldl Scan.step .start =
        .closed (x :: xs) := by
      rw [List.cons_append, segment_ascii _ _ (by decide)]
      simp only [List.foldl_cons, Scan.step, show ('[' : Char).toNat < 0x80 by decide, if_true]
      have hopen : Scan.stepChar .start '[' = .opened := by decide
      rw [hopen, run_members x xs .opened [] [']'] (by decide) hv]
      rfl
    simp only [unmarshal, hall]

end Ref

/-! ## The response writer -/

/-- A response that starts with `Content-Type: application/json` and writes
`out` on a fresh writer has status 200, that content type and body `out`. -/
theorem json_response_on_fresh (out : String) :
    ((ResponseWriter.fresh.SetHeader "Content-Type" "application/json").Write out).StatusCode = 200 ∧
    ((ResponseWriter.fresh.SetHeader "Content-Type" "application/json").Write out).SentHeader
      "Content-Type" = "application/json" ∧
    ((ResponseWriter.fresh.SetHeader "Content-Type" "application/json").Write out).body = out := by
  simp [ResponseWriter.fresh, ResponseWriter.SetHeader, ResponseWriter.Write,
    ResponseWriter.WriteHeader, ResponseWriter.StatusCode, ResponseWriter.SentHeader,
    ResponseWriter.bodyAllowedForStatus, Header.Set, Header.Del, Header.Get, List.lookup]

/-! ## Status and body of error responses -/

/-- Once a status is sent, `Write` does not change it. -/
theorem Write_sent (w : ResponseWriter) (data : String) (x : Nat × Header)
    (h : w.sent = some x) : (w.Write data).sent = some x := by
  simp only [ResponseWriter.Write, ResponseWriter.WriteHeader, h]
  split_ifs <;> first | rfl | exact h

/-- The first `Write` on a writer that has sent nothing sends 200. -/
theorem Write_sent_none (w : ResponseWriter) (data : String) (h : w.sent = none) :
    (w.Write data).sent = some (200, w.header) := by
  simp only [ResponseWriter.Write, ResponseWriter.WriteHeader, h]
  split_ifs <;> rfl

/-- Once a status is sent, `http.Error` does not change it. -/
theorem httpError_sent (w : ResponseWriter) (msg : String) (code : Nat) (x : Nat × Header)
    (h : w.sent = some x) : (httpError w msg code).sent = some x := by
  unfold httpError
  apply Write_sent
  simp only [ResponseWriter.WriteHeader, h]

/-- `http.Error` on a writer that has sent nothing sends `code`. -/
theorem httpError_status (w : ResponseWriter) (msg : String) (code : Nat) (h : w.sent = none) :
    (httpError w msg code).StatusCode = code := by
  have : (httpError w msg code).sent =
      some (code, Header.Set (Header.Set (Header.Del w.header "Content-Length")
        "Content-Type" "text/plain; charset=utf-8") "X-Content-Type-Options" "nosniff") := by
    unfold httpError
    apply Write_sent
    simp only [ResponseWriter.WriteHeader, h]
  simp only [ResponseWriter.StatusCode, this]

/-- The status of a writer that has sent one. -/
theorem StatusCode_of_sent (w : ResponseWriter) (x : Nat × Header) (h : w.sent = some x) :
    w.StatusCode = x.1 := by
  simp only [ResponseWriter.StatusCode, h]

/-- Encoding, or its failure branch, keeps a status already sent. -/
theorem encodeOrError_sent {σ : Type} (env : Env σ) (w : ResponseWriter) (v : JSONBody)
    (x : Nat × Header) (h : w.sent = some x) : (handler.encodeOrError env w v).sent = some x := by
  unfold handler.encodeOrError
  split
  · exact Write_sent w _ x h
  · exact httpError_sent w _ _ x h

/-- The status after encoding on a writer that has sent nothing: 200 when the
encoder succeeds, 500 when it fails. -/
theorem encodeOrError_status {σ : Type} (env : Env σ) (w : ResponseWriter) (v : JSONBody)
    (h : w.sent = none) :
    (handler.encodeOrError env w v).StatusCode =
      match env.Encode v with
      | .ok _ => 200
      | .error _ => 500 := by
  unfold handler.encodeOrError
  split
  · simp only [ResponseWriter.StatusCode, Write_sent_none w _ h]
  · exact httpError_status w _ _ h

/-- `strings.TrimPrefix` removes a prefix that is there. -/
theorem TrimPrefix_append (pre s : String) : TrimPrefix (pre ++ s) pre = s := by
  have h : ∀ (p cs : List Char), cutPrefix (p ++ cs) p = some cs := by
    intro p
    induction p with
    | nil => intro cs; cases cs <;> rfl
    | cons a p ih => intro cs; simp [cutPrefix, ih]
  simp [TrimPrefix, String.data_append, h]

/-! ## Responses to service errors -/

namespace handler

/-- The response of the POST handler to a create error. -/
theorem post_error_response {σ : Type} (env : Env σ) (r : Request) (s s1 : σ) (idp : IdP)
    (err : GoError) (hdec : env.Decode r.Body = .ok idp)
    (hsvc : service.CreateIdP env idp s = (.error err, s1)) :
    (HandleIdPPostRequest env r ResponseWriter.fresh s).1 =
      httpError
        (if errorsIs err .ErrBadScopesInRequest then
          httpError ResponseWriter.fresh
            "Bad Request: The scopes element is malformed or contains invalid data." 400
        else httpError ResponseWriter.fresh "Internal Server Error" 500)
        "Internal Server Error" 500 := by
  simp only [HandleIdPPostRequest, hdec, hsvc]

/-- The response of the list handler to a service error. -/
theorem list_error_response {σ : Type} (env : Env σ) (r : Request) (s s1 : σ) (l : List IdP)
    (err : GoError) (hsvc : service.GetIdPList env s = ((l, some err), s1)) :
    (HandleIdPListRequest env r ResponseWriter.fresh s).1 =
      httpError ResponseWriter.fresh "Internal Server Error" 500 := by
  simp only [HandleIdPListRequest, hsvc]

/-- The response of the GET handler to a service error. -/
theorem get_error_response {σ : Type} (env : Env σ) (r : Request) (s s1 : σ) (err : GoError)
    (hsvc : service.GetIdP env (TrimPrefix r.URLPath "/identity-providers/") s = (.error err, s1))
    (hne : TrimPrefix r.URLPath "/identity-providers/" ≠ "") :
    (HandleIdPGetRequest env r ResponseWriter.fresh s).1 =
      if errorsIs err .ErrIdPNotFound then
        httpError ResponseWriter.fresh
          "Not Found: The identity provider with the specified id does not exist." 404
      else httpError ResponseWriter.fresh "Internal Server Error" 500 := by
  simp only [HandleIdPGetRequest, hne, if_false, hsvc]
  split_ifs <;> rfl

/-- The response of the PUT handler to a service error. -/
theorem put_error_response {σ : Type} (env : Env σ) (r : Request) (s s1 : σ) (idp : IdP)
    (err : GoError) (hne : TrimPrefix r.URLPath "/identity-providers/" ≠ "")
    (hdec : env.Decode r.Body = .ok idp)
    (hsvc : service.UpdateIdP env (TrimPrefix r.URLPath "/identity-providers/")
      { idp with ID := TrimPrefix r.URLPath "/identity-providers/" } s = (.error err, s1)) :
    (HandleIdPPutRequest env r ResponseWriter.fresh s).1 =
      if errorsIs err .ErrIdPNotFound then
        httpError ResponseWriter.fresh
          "Not Found: The identity provider with the specified id does not exist." 404
      else if errorsIs err .ErrBadScopesInRequest then
        httpError ResponseWriter.fresh
          "Bad Request: The attributes element is malformed or contains invalid data." 400
      else httpError ResponseWriter.fresh "Internal Server Error" 500 := by
  simp only [HandleIdPPutRequest, hne, if_false, hdec, hsvc]
  split_ifs <;> rfl

/-- The response of the DELETE handler to a service error. -/
theorem delete_error_response {σ : Type} (env : Env σ) (r : Request) (s s1 : σ) (err : GoError)
    (hne : TrimPrefix r.URLPath "/identity-providers/" ≠ "")
    (hsvc : service.DeleteIdP env (TrimPrefix r.URLPath "/identity-providers/") s =
      (some err, s1)) :
    (HandleIdPDeleteRequest env r ResponseWriter.fresh s).1 =
      httpError ResponseWriter.fresh "Internal Server Error" 500 := by
  simp only [HandleIdPDeleteRequest, hne, if_false, hsvc]

end handler

/-! ## The claims -/

/-- C1, as amended (round trip).  Let the scopes be serialised by
`encoding/json` and let every scope of `R` be valid UTF-8.  Take a store in
which the insert issued for `R` succeeds and in which, at the later moment `t`
of the read, the select by the generated id returns exactly the row built from
the insert's parameters.  Then creating `R` succeeds with the generated id, and
`store.GetIdP` with that id returns, without error, `R` with only the id
replaced: name, description, client_id, client_secret, redirect_uri and the
scopes (same elements, same order) are those of `R`. -/
theorem create_then_get_round_trip {σ : Type} (env : Env σ) (c c2 : DBClient σ) (R : IdP)
    (uuid scopes : String) (n : Int) (row : Row) (s s1 s2 s3 t t1 t2 : σ)
    (hjson : env.Marshal = Ref.marshal ∧ env.Unmarshal = Ref.unmarshal)
    (hvalid : ∀ x ∈ R.Scopes, Ref.validUTF8 x = true)
    (hmar : Ref.marshal R.Scopes = .ok scopes)
    (hgen : env.GenerateUUID s = (uuid, s1))
    (hcli : env.GetDBClient "identity" s1 = (.ok c, s2))
    (hins : c.Execute store.QueryCreateIdP
      [.str uuid, .str R.Name, .str R.Description, .str R.ClientID, .str R.ClientSecret,
       .str R.RedirectURI, .str scopes] s2 = (.ok n, s3))
    (hcli2 : env.GetDBClient "identity" t = (.ok c2, t1))
    (hsel : c2.Query store.QueryGetIdPByIdPID [.str uuid] t1 = (.ok [row], t2))
    (hrow : store.Carries row { R with ID := uuid } scopes) :
    service.CreateIdP env R s = (.ok { R with ID := uuid }, (c.Close s3).2) ∧
    store.GetIdP env uuid t = (({ R with ID := uuid }, none), (c2.Close t2).2) ∧
    ∀ got, (store.GetIdP env uuid t).1 = (got, none) →
      got.Name = R.Name ∧ got.Description = R.Description ∧ got.ClientID = R.ClientID ∧
      got.ClientSecret = R.ClientSecret ∧ got.RedirectURI = R.RedirectURI ∧
      got.Scopes = R.Scopes := by
  have hunm : env.Unmarshal scopes = .ok R.Scopes := by
    obtain ⟨text, h1, h2⟩ := Ref.unmarshal_marshal R.Scopes hvalid
    rw [hmar] at h1
    cases h1
    rw [hjson.2]
    exact h2
  have hmar2 : env.Marshal R.Scopes = .ok scopes := by rw [hjson.1]; exact hmar
  have hget : store.GetIdP env uuid t = (({ R with ID := uuid }, none), (c2.Close t2).2) := by
    rw [store.GetIdP_of_rows env c2 uuid t t1 t2 [row] hcli2 hsel]
    simp [store.buildIdPFromResultRow_of_carries env row { R with ID := uuid } scopes hrow hunm]
  refine ⟨?_, hget, ?_⟩
  · simp [service.CreateIdP, store.CreateIdP, store.closing, hgen, hcli, hmar2, hins]
  · intro got hgot
    rw [hget] at hgot
    simp only [Prod.mk.injEq, and_true] at hgot
    subst hgot
    simp

/-- C1 for the record of the integration tests, created in the empty reference table. -/
theorem create_then_get_round_trip_witness :
    service.CreateIdP Ref.plain Ref.github Ref.emptyWorld =
      (.ok { Ref.github with ID := "u1" },
        ⟨[⟨"u1", "Github", "Login with Github", "client1", "secret1",
          "https://localhost:8090/flow/authn", "[\"user:email\",\"read:user\"]"⟩], ["u2"], 3⟩) ∧
    store.GetIdP Ref.plain "u1" (service.CreateIdP Ref.plain Ref.github Ref.emptyWorld).2 =
      (({ Ref.github with ID := "u1" }, none),
        ⟨[⟨"u1", "Github", "Login with Github", "client1", "secret1",
          "https://localhost:8090/flow/authn", "[\"user:email\",\"read:user\"]"⟩], ["u2"], 6⟩) ∧
    ∀ got, (store.GetIdP Ref.plain "u1"
        (service.CreateIdP Ref.plain Ref.github Ref.emptyWorld).2).1 = (got, none) →
      got.Name = "Github" ∧ got.Description = "Login with Github" ∧ got.ClientID = "client1" ∧
      got.ClientSecret = "secret1" ∧ got.RedirectURI = "https://localhost:8090/flow/authn" ∧
      got.Scopes = ["user:email", "read:user"] :=
  create_then_get_round_trip Ref.plain (Ref.client none) (Ref.client none) Ref.github "u1"
    "[\"user:email\",\"read:user\"]" 1
    (Ref.TableRow.toRow ⟨"u1", "Github", "Login with Github", "client1", "secret1",
      "https://localhost:8090/flow/authn", "[\"user:email\",\"read:user\"]"⟩)
    Ref.emptyWorld ⟨[], ["u2"], 0⟩ ⟨[], ["u2"], 1⟩
    ⟨[⟨"u1", "Github", "Login with Github", "client1", "secret1",
      "https://localhost:8090/flow/authn", "[\"user:email\",\"read:user\"]"⟩], ["u2"], 2⟩
    (service.CreateIdP Ref.plain Ref.github Ref.emptyWorld).2
    ⟨[⟨"u1", "Github", "Login with Github", "client1", "secret1",
      "https://localhost:8090/flow/authn", "[\"user:email\",\"read:user\"]"⟩], ["u2"], 4⟩
    ⟨[⟨"u1", "Github", "Login with Github", "client1", "secret1",
      "https://localhost:8090/flow/authn", "[\"user:email\",\"read:user\"]"⟩], ["u2"], 5⟩
    ⟨rfl, rfl⟩ (by decide) rfl rfl rfl rfl rfl rfl (by decide)

/-- C1 as stated fails for a scope that is not UTF-8.  The record `Ref.latin`
has the one scope `"\xff"`.  Creating it in the empty table succeeds and stores
the scopes as `["\ufffd"]`, `json.Marshal` having replaced the byte; the select
by the generated id returns that row, and `store.GetIdP` returns, without
error, a record whose scope is the three bytes of U+FFFD, not the scope of the
record created. -/
theorem create_then_get_loses_invalid_utf8 :
    service.CreateIdP Ref.plain Ref.latin Ref.emptyWorld =
      (.ok { Ref.latin with ID := "u1" },
        ⟨[⟨"u1", "Github", "Login with Github", "client1", "secret1",
          "https://localhost:8090/flow/authn", "[\"\\ufffd\"]"⟩], ["u2"], 3⟩) ∧
    (store.GetIdP Ref.plain "u1" (service.CreateIdP Ref.plain Ref.latin Ref.emptyWorld).2).1 =
      ({ Ref.latin with ID := "u1", Scopes := ["\xef\xbf\xbd"] }, none) ∧
    (store.GetIdP Ref.plain "u1"
      (service.CreateIdP Ref.plain Ref.latin Ref.emptyWorld).2).1.1.Scopes ≠ Ref.latin.Scopes := by
  refine ⟨rfl, by decide, by decide⟩

/-- C2.  When the select by id executes without error, `store.GetIdP`
classifies by the number of rows: zero rows give `ErrIdPNotFound` and the zero
record; two or more rows give an error that is not `ErrIdPNotFound` (not even
wrapped) and the zero record; exactly one row gives the decoding of that row,
its error, if any, wrapped. -/
theorem GetIdP_classifies_by_row_count {σ : Type} (env : Env σ) (c : DBClient σ) (id : String)
    (rows : List Row) (s s1 s2 : σ)
    (hcli : env.GetDBClient "identity" s = (.ok c, s1))
    (hsel : c.Query store.QueryGetIdPByIdPID [.str id] s1 = (.ok rows, s2)) :
    (rows.length = 0 → (store.GetIdP env id s).1 = (IdP.zero, some .ErrIdPNotFound)) ∧
    (2 ≤ rows.length →
      ∃ err, (store.GetIdP env id s).1 = (IdP.zero, some err) ∧
        errorsIs err .ErrIdPNotFound = false) ∧
    (∀ row, rows = [row] →
      (store.GetIdP env id s).1 =
        ((store.buildIdPFromResultRow env row).1,
         (store.buildIdPFromResultRow env row).2.map
           (.wrap "failed to build idp from result row")) ∧
      ∀ idp, store.buildIdPFromResultRow env row = (idp, none) →
        (store.GetIdP env id s).1 = (idp, none)) := by
  rw [store.GetIdP_of_rows env c id s s1 s2 rows hcli hsel]
  refine ⟨?_, ?_, ?_⟩
  · intro h
    match rows, h with
    | [], _ => rfl
  · intro h
    match rows, h with
    | _ :: _ :: _, _ => exact ⟨_, rfl, by simp [errorsIs]⟩
  · intro row h
    subst h
    refine ⟨rfl, ?_⟩
    intro idp hb
    simp [hb]

/-- C2 on a table with two rows of id `a`: neither row is returned. -/
theorem GetIdP_classifies_by_row_count_witness :
    ∃ err, (store.GetIdP Ref.plain "a" Ref.twins).1 = (IdP.zero, some err) ∧
      errorsIs err .ErrIdPNotFound = false :=
  (GetIdP_classifies_by_row_count Ref.plain (Ref.client none) "a" _ Ref.twins _ _ rfl rfl).2.1
    (by decide)

/-- C3.  When the scopes serialise and the update statement executes, reporting
`n` affected rows, `store.UpdateIdP` returns `ErrIdPNotFound` exactly when
`n = 0` and returns `nil` otherwise, in particular whenever `1 ≤ n`: an update
that touched no row always ends in an error. -/
theorem UpdateIdP_not_found_iff_no_row {σ : Type} (env : Env σ) (c : DBClient σ) (idp : IdP)
    (scopes : String) (n : Int) (s s1 s2 : σ)
    (hcli : env.GetDBClient "identity" s = (.ok c, s1))
    (hmar : env.Marshal idp.Scopes = .ok scopes)
    (hupd : c.Execute store.QueryUpdateIdPByIdPID
      [.str idp.ID, .str idp.Name, .str idp.Description, .str idp.ClientID,
       .str idp.ClientSecret, .str idp.RedirectURI, .str scopes] s1 = (.ok n, s2)) :
    ((store.UpdateIdP env idp s).1 = some .ErrIdPNotFound ↔ n = 0) ∧
    (1 ≤ n → (store.UpdateIdP env idp s).1 = none) ∧
    (n = 0 → (store.UpdateIdP env idp s).1 ≠ none) ∧
    (store.UpdateIdP env idp s).2 = (c.Close s2).2 := by
  have h : store.UpdateIdP env idp s =
      (if n = 0 then some .ErrIdPNotFound else none, (c.Close s2).2) := by
    simp only [store.UpdateIdP, hcli, store.closing, hmar, hupd]
    split <;> rfl
  rw [h]
  refine ⟨?_, ?_, ?_, rfl⟩
  · by_cases hn : n = 0 <;> simp [hn]
  · intro hn
    have : n ≠ 0 := by omega
    simp [this]
  · intro hn
    simp [hn]

/-- C3 for an update of an id the reference table does not hold. -/
theorem UpdateIdP_not_found_iff_no_row_witness :
    (store.UpdateIdP Ref.plain { Ref.github with ID := "missing" } Ref.stored).1 =
      some .ErrIdPNotFound :=
  (UpdateIdP_not_found_iff_no_row Ref.plain (Ref.client none)
    { Ref.github with ID := "missing" } "[\"user:email\",\"read:user\"]" 0 Ref.stored _ _
    rfl rfl rfl).1.mpr rfl

/-- C4 (idempotent delete).  For a non-empty id, when the delete statement
executes and affects zero rows, `store.DeleteIdP` and `service.DeleteIdP` return
`nil`, and `HandleIdPDeleteRequest` answers 204 with an empty body; the response
is the one given in a world `t` where the statement affected one row. -/
theorem delete_of_absent_id_succeeds {σ : Type} (env : Env σ) (c c2 : DBClient σ) (id : String)
    (r : Request) (s s1 s2 t t1 t2 : σ)
    (hid : TrimPrefix r.URLPath "/identity-providers/" = id) (hne : id ≠ "")
    (hcli : env.GetDBClient "identity" s = (.ok c, s1))
    (hdel : c.Execute store.QueryDeleteIdPByIdPID [.str id] s1 = (.ok 0, s2))
    (hcli2 : env.GetDBClient "identity" t = (.ok c2, t1))
    (hdel2 : c2.Execute store.QueryDeleteIdPByIdPID [.str id] t1 = (.ok 1, t2)) :
    (store.DeleteIdP env id s).1 = none ∧
    (service.DeleteIdP env id s).1 = none ∧
    (handler.HandleIdPDeleteRequest env r ResponseWriter.fresh s).1.StatusCode = 204 ∧
    (handler.HandleIdPDeleteRequest env r ResponseWriter.fresh s).1.body = "" ∧
    (handler.HandleIdPDeleteRequest env r ResponseWriter.fresh s).1 =
      (handler.HandleIdPDeleteRequest env r ResponseWriter.fresh t).1 := by
  have hs : store.DeleteIdP env id s = (none, (c.Close s2).2) := by
    simp [store.DeleteIdP, hcli, store.closing, hdel]
  have ht : store.DeleteIdP env id t = (none, (c2.Close t2).2) := by
    simp [store.DeleteIdP, hcli2, store.closing, hdel2]
  have hs2 : service.DeleteIdP env id s = (none, (c.Close s2).2) := by
    simp [service.DeleteIdP, hne, hs]
  have ht2 : service.DeleteIdP env id t = (none, (c2.Close t2).2) := by
    simp [service.DeleteIdP, hne, ht]
  have hh : ∀ u u2, service.DeleteIdP env id u = (none, u2) →
      (handler.HandleIdPDeleteRequest env r ResponseWriter.fresh u).1 =
        ResponseWriter.fresh.WriteHeader 204 := by
    intro u u2 hu
    simp [handler.HandleIdPDeleteRequest, hid, hne, hu]
  rw [hs, hs2, hh s _ hs2, hh t _ ht2]
  exact ⟨rfl, rfl, rfl, rfl, rfl⟩

/-- C4 for the id `missing`, absent from one reference table and present in another. -/
theorem delete_of_absent_id_succeeds_witness :
    (store.DeleteIdP Ref.plain "missing" Ref.stored).1 = none ∧
    (service.DeleteIdP Ref.plain "missing" Ref.stored).1 = none ∧
    (handler.HandleIdPDeleteRequest Ref.plain ⟨"/identity-providers/missing", ""⟩
      ResponseWriter.fresh Ref.stored).1.StatusCode = 204 ∧
    (handler.HandleIdPDeleteRequest Ref.plain ⟨"/identity-providers/missing", ""⟩
      ResponseWriter.fresh Ref.stored).1.body = "" ∧
    (handler.HandleIdPDeleteRequest Ref.plain ⟨"/identity-providers/missing", ""⟩
      ResponseWriter.fresh Ref.stored).1 =
      (handler.HandleIdPDeleteRequest Ref.plain ⟨"/identity-providers/missing", ""⟩
        ResponseWriter.fresh
        ⟨[⟨"missing", "n", "d", "c", "x", "r", "[]"⟩], [], 0⟩).1 :=
  delete_of_absent_id_succeeds Ref.plain (Ref.client none) (Ref.client none) "missing"
    ⟨"/identity-providers/missing", ""⟩ Ref.stored _ _
    ⟨[⟨"missing", "n", "d", "c", "x", "r", "[]"⟩], [], 0⟩ _ _
    (by decide) (by decide) rfl rfl rfl rfl

/-- C5 (the code at the failing input).  `service.UpdateIdP "a" r` with a record
`r` carrying id `b` leaves the record as it is: the update statement runs for
id `b`, row `a` keeps its columns, row `b` takes the new ones, and the record
returned has id `b`, not `a`.  The id argument is only tested for emptiness. -/
theorem service_UpdateIdP_keeps_record_id :
    service.UpdateIdP Ref.plain "a" Ref.updateOfB Ref.pair =
      (.ok Ref.updateOfB,
       ⟨[⟨"a", "Google", "Google User Login", "client2", "secret2",
          "https://localhost:8090/flow/authn2", "[]"⟩,
         ⟨"b", "Github", "Github User Login", "client3", "secret3",
          "https://localhost:8090/flow/authn3", "[\"user:email\"]"⟩], [], 3⟩) ∧
    Ref.updateOfB.ID ≠ "a" ∧
    ∀ (σ : Type) (env : Env σ) (idPID : String) (idP : IdP) (s : σ), idPID ≠ "" →
      service.UpdateIdP env idPID idP s =
        (match (store.UpdateIdP env idP s).1 with
          | some err => .error err
          | none => .ok idP,
         (store.UpdateIdP env idP s).2) := by
  refine ⟨rfl, by decide, ?_⟩
  intro σ env idPID idP s hne
  simp only [service.UpdateIdP, hne, if_false]
  rcases h : store.UpdateIdP env idP s with ⟨_ | err, s1⟩ <;> rfl

/-- C6.  With the empty id, `service.GetIdP`, `service.UpdateIdP` and
`service.DeleteIdP` return the error "IdP ID is empty" and no record, whatever
the environment, and leave the world untouched: neither the database provider
nor a client is called (the reference world counts no call). -/
theorem empty_id_is_rejected_before_persistence {σ : Type} (env : Env σ) (r : IdP) (s : σ) :
    service.GetIdP env "" s = (.error (.new "IdP ID is empty"), s) ∧
    service.UpdateIdP env "" r s = (.error (.new "IdP ID is empty"), s) ∧
    service.DeleteIdP env "" s = (some (.new "IdP ID is empty"), s) ∧
    errorsIs (.new "IdP ID is empty") .ErrIdPNotFound = false ∧
    errorsIs (.new "IdP ID is empty") .ErrBadScopesInRequest = false ∧
    (service.GetIdP Ref.plain "" Ref.stored).2.calls = 0 ∧
    (service.UpdateIdP Ref.plain "" r Ref.stored).2.calls = 0 ∧
    (service.DeleteIdP Ref.plain "" Ref.stored).2.calls = 0 ∧
    (service.DeleteIdP Ref.plain "b" Ref.stored).2.calls = 3 := by
  refine ⟨rfl, rfl, rfl, by decide, by decide, rfl, rfl, rfl, by decide⟩

/-- C7.  `service.CreateIdP` replaces the id of the input by the generator's
output: that record, equal to the input in every other field, is the one handed
to `store.CreateIdP` and the one returned on success; when `store.CreateIdP`
fails, its error is returned as it is, with no record. -/
theorem CreateIdP_assigns_generated_id {σ : Type} (env : Env σ) (R : IdP) (s : σ) :
    service.CreateIdP env R s =
      (match (store.CreateIdP env { R with ID := (env.GenerateUUID s).1 }
          (env.GenerateUUID s).2).1 with
        | some err => .error err
        | none => .ok { R with ID := (env.GenerateUUID s).1 },
       (store.CreateIdP env { R with ID := (env.GenerateUUID s).1 } (env.GenerateUUID s).2).2) ∧
    (∀ created, (service.CreateIdP env R s).1 = .ok created →
      created.ID = (env.GenerateUUID s).1 ∧ created.Name = R.Name ∧
      created.Description = R.Description ∧ created.ClientID = R.ClientID ∧
      created.ClientSecret = R.ClientSecret ∧ created.RedirectURI = R.RedirectURI ∧
      created.Scopes = R.Scopes) ∧
    (∀ err, (store.CreateIdP env { R with ID := (env.GenerateUUID s).1 }
        (env.GenerateUUID s).2).1 = some err →
      (service.CreateIdP env R s).1 = .error err) := by
  have h : service.CreateIdP env R s =
      (match (store.CreateIdP env { R with ID := (env.GenerateUUID s).1 }
          (env.GenerateUUID s).2).1 with
        | some err => .error err
        | none => .ok { R with ID := (env.GenerateUUID s).1 },
       (store.CreateIdP env { R with ID := (env.GenerateUUID s).1 }
          (env.GenerateUUID s).2).2) := by
    unfold service.CreateIdP
    rcases hg : env.GenerateUUID s with ⟨uuid, s1⟩
    simp only
    rcases hc : store.CreateIdP env { R with ID := uuid } s1 with ⟨_ | err, s2⟩ <;> rfl
  refine ⟨h, ?_, ?_⟩
  · intro created hc
    rw [h] at hc
    rcases hst : (store.CreateIdP env { R with ID := (env.GenerateUUID s).1 }
        (env.GenerateUUID s).2).1 with _ | err
    · rw [hst] at hc
      simp only [Except.ok.injEq] at hc
      subst hc
      simp
    · rw [hst] at hc
      simp at hc
  · intro err he
    rw [h, he]

/-- C8 (list projection).  The record `buildIdPForListFromResultRow` produces
has empty `ClientSecret` and `RedirectURI` for every row; on success its id,
name, description and client_id are the row's columns and its scopes are the
row's scopes column deserialised.  Two rows that agree on every column other
than `client_secret` and `redirect_uri` decode to the same result, so the
records of `store.GetIdPList` and `service.GetIdPList`, and the `client_secret`
member of their JSON form, never hold a stored secret. -/
theorem list_projection_omits_secret {σ : Type} (env : Env σ) (row row2 : Row)
    (hsame : ∀ key, key ≠ "client_secret" → key ≠ "redirect_uri" → row.get key = row2.get key) :
    store.buildIdPForListFromResultRow env row = store.buildIdPForListFromResultRow env row2 ∧
    (store.buildIdPForListFromResultRow env row).1.ClientSecret = "" ∧
    (store.buildIdPForListFromResultRow env row).1.RedirectURI = "" ∧
    (∀ idp, store.buildIdPForListFromResultRow env row = (idp, none) →
      row.getString "idp_id" = some idp.ID ∧ row.getString "name" = some idp.Name ∧
      row.getString "description" = some idp.Description ∧
      row.getString "client_id" = some idp.ClientID ∧
      ∃ text, store.scopesColumn row = some text ∧ env.Unmarshal text = .ok idp.Scopes) ∧
    (∀ s, ∀ idp ∈ (store.GetIdPList env s).1.1, idp.ClientSecret = "" ∧ idp.RedirectURI = "") ∧
    (∀ s, ∀ idp ∈ (service.GetIdPList env s).1.1,
      idp.ClientSecret = "" ∧ idp.RedirectURI = "" ∧
      List.lookup "client_secret" (handler.idpJSON idp) = some (.string "")) := by
  have hk : ∀ key, key ≠ "client_secret" → key ≠ "redirect_uri" →
      row.getString key = row2.getString key := by
    intro key h1 h2
    simp only [Row.getString, hsame key h1 h2]
  have hsc : store.scopesColumn row = store.scopesColumn row2 := by
    simp only [store.scopesColumn, hsame "scopes" (by decide) (by decide)]
  have hlist : ∀ s, ∀ idp ∈ (store.GetIdPList env s).1.1,
      idp.ClientSecret = "" ∧ idp.RedirectURI = "" := by
    intro s
    apply store.GetIdPList_mem env
    intro r idp h
    have := store.buildIdPForListFromResultRow_ok env r idp h
    exact ⟨this.1, this.2.1⟩
  refine ⟨?_, ?_, ?_, ?_, hlist, ?_⟩
  · simp only [store.buildIdPForListFromResultRow, hsc, hk "idp_id" (by decide) (by decide),
      hk "name" (by decide) (by decide), hk "description" (by decide) (by decide),
      hk "client_id" (by decide) (by decide)]
  · unfold store.buildIdPForListFromResultRow
    repeat' split
    all_goals rfl
  · unfold store.buildIdPForListFromResultRow
    repeat' split
    all_goals rfl
  · intro idp h
    exact (store.buildIdPForListFromResultRow_ok env row idp h).2.2
  · intro s idp hmem
    have hsub : ∀ x ∈ (service.GetIdPList env s).1.1, x ∈ (store.GetIdPList env s).1.1 := by
      intro x hx
      unfold service.GetIdPList at hx
      split at hx
      · simp at hx
      · rename_i h
        rw [h]
        exact hx
    obtain ⟨h1, h2⟩ := hlist s idp (hsub idp hmem)
    exact ⟨h1, h2, by simp [handler.idpJSON, List.lookup, h1]⟩

/-- C8 for two rows that differ in secret and redirect URI only. -/
theorem list_projection_omits_secret_witness :
    store.buildIdPForListFromResultRow Ref.plain
        (Ref.TableRow.toRow ⟨"b", "Github", "d", "client1", "secret1", "https://h/cb", "[\"s\"]"⟩) =
      store.buildIdPForListFromResultRow Ref.plain
        (Ref.TableRow.toRow ⟨"b", "Github", "d", "client1", "other", "https://x/y", "[\"s\"]"⟩) ∧
    store.buildIdPForListFromResultRow Ref.plain
        (Ref.TableRow.toRow ⟨"b", "Github", "d", "client1", "secret1", "https://h/cb", "[\"s\"]"⟩) =
      (⟨"b", "Github", "d", "client1", "", "", ["s"]⟩, none) :=
  ⟨(list_projection_omits_secret Ref.plain
      (Ref.TableRow.toRow ⟨"b", "Github", "d", "client1", "secret1", "https://h/cb", "[\"s\"]"⟩)
      (Ref.TableRow.toRow ⟨"b", "Github", "d", "client1", "other", "https://x/y", "[\"s\"]"⟩)
      (by
        intro key h1 h2
        simp only [Row.get, Ref.TableRow.toRow, List.lookup]
        repeat' split
        all_goals first | rfl | simp_all)).1, by decide⟩

/-- C9.  When the service returns the record `idp` for a GET by id and the
encoder renders the response object as `out`, the response has status 200,
`Content-Type: application/json` and body `out`; the object encoded has exactly
the members id, name, description, client_id, redirect_uri and scopes, each the
record's field, has no `client_secret` member, and is the same for every secret
the record may hold. -/
theorem get_response_projects_record {σ : Type} (env : Env σ) (r : Request) (idp : IdP)
    (out : String) (s s1 : σ)
    (hsvc : service.GetIdP env (TrimPrefix r.URLPath "/identity-providers/") s = (.ok idp, s1))
    (henc : env.Encode (.object (handler.idpMap idp)) = .ok out) :
    (handler.HandleIdPGetRequest env r ResponseWriter.fresh s).1.StatusCode = 200 ∧
    (handler.HandleIdPGetRequest env r ResponseWriter.fresh s).1.SentHeader "Content-Type" =
      "application/json" ∧
    (handler.HandleIdPGetRequest env r ResponseWriter.fresh s).1.body = out ∧
    (handler.idpMap idp).map Prod.fst =
      ["id", "name", "description", "client_id", "redirect_uri", "scopes"] ∧
    handler.idpMap idp =
      [("id", .string idp.ID), ("name", .string idp.Name),
       ("description", .string idp.Description), ("client_id", .string idp.ClientID),
       ("redirect_uri", .string idp.RedirectURI), ("scopes", .strings idp.Scopes)] ∧
    List.lookup "client_secret" (handler.idpMap idp) = none ∧
    ∀ secret, handler.idpMap { idp with ClientSecret := secret } = handler.idpMap idp := by
  have hne : TrimPrefix r.URLPath "/identity-providers/" ≠ "" := by
    intro h0
    rw [h0] at hsvc
    simp [service.GetIdP] at hsvc
  have hresp : (handler.HandleIdPGetRequest env r ResponseWriter.fresh s).1 =
      (ResponseWriter.fresh.SetHeader "Content-Type" "application/json").Write out := by
    simp [handler.HandleIdPGetRequest, hne, hsvc, handler.encodeOrError, henc]
  rw [hresp]
  obtain ⟨h1, h2, h3⟩ := json_response_on_fresh out
  refine ⟨h1, h2, h3, rfl, rfl, ?_, fun _ => rfl⟩
  simp [handler.idpMap, List.lookup]

/-- C9 for a GET of the stored record `b`. -/
theorem get_response_projects_record_witness :
    (handler.HandleIdPGetRequest Ref.web ⟨"/identity-providers/b", ""⟩ ResponseWriter.fresh
      Ref.stored).1 =
      ⟨[("Content-Type", "application/json")], some (200, [("Content-Type", "application/json")]),
        "id,name,description,client_id,redirect_uri,scopes"⟩ ∧
    (handler.HandleIdPGetRequest Ref.web ⟨"/identity-providers/b", ""⟩ ResponseWriter.fresh
      Ref.stored).1.StatusCode = 200 :=
  ⟨by decide,
   (get_response_projects_record Ref.web ⟨"/identity-providers/b", ""⟩
      ⟨"b", "Github", "Login with Github", "client1", "secret1",
        "https://localhost:8090/flow/authn", ["user:email", "read:user"]⟩
      "id,name,description,client_id,redirect_uri,scopes" Ref.stored _ rfl rfl).1⟩

/-- C10.  For a PUT whose path gives the non-empty `id` and whose body decodes to
`body` (with any id of its own), the update statement is executed with `id` as
`IDP_ID` and the body's other fields; when it affects a row, the response is 200
with the encoding of the body's record under the path id.  At any later moment
`t` at which the select by `id` returns the row written by that update, both
`store.GetIdP` and the GET handler give the body's fields under the path id. -/
theorem put_makes_path_id_authoritative {σ : Type} (env : Env σ) (c c2 : DBClient σ)
    (r g : Request) (id scopes out out2 : String) (body : IdP) (n : Int) (row : Row)
    (s s1 s2 t t1 t2 : σ)
    (hid : TrimPrefix r.URLPath "/identity-providers/" = id) (hne : id ≠ "")
    (hdec : env.Decode r.Body = .ok body)
    (hcli : env.GetDBClient "identity" s = (.ok c, s1))
    (hmar : env.Marshal body.Scopes = .ok scopes)
    (hupd : c.Execute store.QueryUpdateIdPByIdPID
      [.str id, .str body.Name, .str body.Description, .str body.ClientID,
       .str body.ClientSecret, .str body.RedirectURI, .str scopes] s1 = (.ok n, s2))
    (hn : n ≠ 0)
    (henc : env.Encode (.object (handler.idpJSON { body with ID := id })) = .ok out)
    (hgid : TrimPrefix g.URLPath "/identity-providers/" = id)
    (hcli2 : env.GetDBClient "identity" t = (.ok c2, t1))
    (hsel : c2.Query store.QueryGetIdPByIdPID [.str id] t1 = (.ok [row], t2))
    (hrow : store.Carries row { body with ID := id } scopes)
    (hunm : env.Unmarshal scopes = .ok body.Scopes)
    (henc2 : env.Encode (.object (handler.idpMap { body with ID := id })) = .ok out2) :
    service.UpdateIdP env id { body with ID := id } s = (.ok { body with ID := id }, (c.Close s2).2) ∧
    (handler.HandleIdPPutRequest env r ResponseWriter.fresh s).2 = (c.Close s2).2 ∧
    (handler.HandleIdPPutRequest env r ResponseWriter.fresh s).1.StatusCode = 200 ∧
    (handler.HandleIdPPutRequest env r ResponseWriter.fresh s).1.body = out ∧
    List.lookup "id" (handler.idpJSON { body with ID := id }) = some (.string id) ∧
    store.GetIdP env id t = (({ body with ID := id }, none), (c2.Close t2).2) ∧
    (handler.HandleIdPGetRequest env g ResponseWriter.fresh t).1.StatusCode = 200 ∧
    (handler.HandleIdPGetRequest env g ResponseWriter.fresh t).1.body = out2 := by
  have hst : store.UpdateIdP env { body with ID := id } s = (none, (c.Close s2).2) := by
    simp [store.UpdateIdP, hcli, store.closing, hmar, hupd, hn]
  have hsv : service.UpdateIdP env id { body with ID := id } s =
      (.ok { body with ID := id }, (c.Close s2).2) := by
    simp [service.UpdateIdP, hne, hst]
  have hput : handler.HandleIdPPutRequest env r ResponseWriter.fresh s =
      ((ResponseWriter.fresh.SetHeader "Content-Type" "application/json").Write out,
        (c.Close s2).2) := by
    simp [handler.HandleIdPPutRequest, hid, hne, hdec, hsv, handler.encodeOrError, henc]
  have hget : store.GetIdP env id t = (({ body with ID := id }, none), (c2.Close t2).2) := by
    rw [store.GetIdP_of_rows env c2 id t t1 t2 [row] hcli2 hsel]
    simp [store.buildIdPFromResultRow_of_carries env row { body with ID := id } scopes hrow hunm]
  have hgsv : service.GetIdP env id t = (.ok { body with ID := id }, (c2.Close t2).2) := by
    simp [service.GetIdP, hne, hget]
  have hgresp : (handler.HandleIdPGetRequest env g ResponseWriter.fresh t).1 =
      (ResponseWriter.fresh.SetHeader "Content-Type" "application/json").Write out2 := by
    simp [handler.HandleIdPGetRequest, hgid, hne, hgsv, handler.encodeOrError, henc2]
  rw [hput, hgresp]
  obtain ⟨h1, _, h3⟩ := json_response_on_fresh out
  obtain ⟨k1, _, k3⟩ := json_response_on_fresh out2
  exact ⟨hsv, rfl, h1, h3, by simp [handler.idpJSON, List.lookup], hget, k1, k3⟩

/-- C10 for a PUT to `a` whose body carries id `b`. -/
theorem put_makes_path_id_authoritative_witness :
    (handler.HandleIdPPutRequest Ref.web ⟨"/identity-providers/a", "body"⟩ ResponseWriter.fresh
      Ref.pair).1.StatusCode = 200 ∧
    store.GetIdP Ref.web "a"
        (handler.HandleIdPPutRequest Ref.web ⟨"/identity-providers/a", "body"⟩
          ResponseWriter.fresh Ref.pair).2 =
      (({ Ref.updateOfB with ID := "a" }, none),
       ⟨[⟨"a", "Github", "Github User Login", "client3", "secret3",
          "https://localhost:8090/flow/authn3", "[\"user:email\"]"⟩,
         ⟨"b", "Github", "Login with Github", "client1", "secret1",
          "https://localhost:8090/flow/authn", "[]"⟩], [], 6⟩) :=
  have h := put_makes_path_id_authoritative Ref.web (Ref.client none) (Ref.client none)
    ⟨"/identity-providers/a", "body"⟩ ⟨"/identity-providers/a", ""⟩ "a" "[\"user:email\"]"
    "id,name,description,client_id,client_secret,redirect_uri,scopes"
    "id,name,description,client_id,redirect_uri,scopes" Ref.updateOfB 1
    (Ref.TableRow.toRow ⟨"a", "Github", "Github User Login", "client3", "secret3",
      "https://localhost:8090/flow/authn3", "[\"user:email\"]"⟩)
    Ref.pair _ _
    (handler.HandleIdPPutRequest Ref.web ⟨"/identity-providers/a", "body"⟩
      ResponseWriter.fresh Ref.pair).2 _ _
    (by decide) (by decide) rfl rfl rfl rfl (by decide) rfl (by decide) rfl rfl (by decide) rfl rfl
  ⟨h.2.2.1, h.2.2.2.2.2.1⟩

/-- C12.  The status of the response to a POST is 400 when the body does not
decode (and then the world is untouched: create is not called), 400 when
`service.CreateIdP` fails with an error that is or wraps
`ErrBadScopesInRequest`, 500 when it fails with any other error, and 201 when it
succeeds. -/
theorem post_status_by_outcome {σ : Type} (env : Env σ) (r : Request) (s : σ) :
    (handler.HandleIdPPostRequest env r ResponseWriter.fresh s).1.StatusCode =
      (match env.Decode r.Body with
       | .error _ => 400
       | .ok idp =>
         match (service.CreateIdP env idp s).1 with
         | .error err => if errorsIs err .ErrBadScopesInRequest then 400 else 500
         | .ok _ => 201) ∧
    (∀ err, env.Decode r.Body = .error err →
      (handler.HandleIdPPostRequest env r ResponseWriter.fresh s).2 = s) ∧
    (∀ idp, env.Decode r.Body = .ok idp →
      (handler.HandleIdPPostRequest env r ResponseWriter.fresh s).2 =
        (service.CreateIdP env idp s).2) := by
  refine ⟨?_, ?_, ?_⟩
  · rcases hd : env.Decode r.Body with err | idp
    · simp only [handler.HandleIdPPostRequest, hd]
      exact httpError_status ResponseWriter.fresh _ _ rfl
    · rcases hc : service.CreateIdP env idp s with ⟨err | created, s1⟩
      · simp only [handler.HandleIdPPostRequest, hd, hc]
        by_cases hb : errorsIs err .ErrBadScopesInRequest = true
        · simp only [hb, if_true]
          exact StatusCode_of_sent _ (400, _)
            (httpError_sent (httpError ResponseWriter.fresh _ 400) _ _ _ rfl)
        · simp only [hb, if_false, Bool.false_eq_true]
          exact StatusCode_of_sent _ (500, _)
            (httpError_sent (httpError ResponseWriter.fresh _ 500) _ _ _ rfl)
      · simp only [handler.HandleIdPPostRequest, hd, hc]
        exact StatusCode_of_sent _ (201, [("Content-Type", "application/json")])
          (encodeOrError_sent env
            ((ResponseWriter.fresh.SetHeader "Content-Type" "application/json").WriteHeader 201)
            _ _ (by decide))
  · intro err hd
    simp [handler.HandleIdPPostRequest, hd]
  · intro idp hd
    simp only [handler.HandleIdPPostRequest, hd]
    rcases hc : service.CreateIdP env idp s with ⟨err | created, s1⟩ <;> rfl

/-- C13.  For a GET whose path is `/identity-providers/` followed by `id`: with
`id` empty the status is 400 and the world is untouched (the service is not
called); otherwise the outcome is that of `service.GetIdP` with exactly `id`,
and the status is 404 when the error is or wraps `ErrIdPNotFound` (and only
then), 500 for every other error, and on success 200 once the response object
is encoded. -/
theorem get_status_by_outcome {σ : Type} (env : Env σ) (id body : String) (s : σ) :
    (id = "" →
      (handler.HandleIdPGetRequest env ⟨"/identity-providers/" ++ id, body⟩
        ResponseWriter.fresh s).1.StatusCode = 400 ∧
      (handler.HandleIdPGetRequest env ⟨"/identity-providers/" ++ id, body⟩
        ResponseWriter.fresh s).2 = s) ∧
    (id ≠ "" →
      (handler.HandleIdPGetRequest env ⟨"/identity-providers/" ++ id, body⟩
        ResponseWriter.fresh s).2 = (service.GetIdP env id s).2 ∧
      (handler.HandleIdPGetRequest env ⟨"/identity-providers/" ++ id, body⟩
        ResponseWriter.fresh s).1.StatusCode =
        (match (service.GetIdP env id s).1 with
         | .error err => if errorsIs err .ErrIdPNotFound then 404 else 500
         | .ok idp =>
           match env.Encode (.object (handler.idpMap idp)) with
           | .ok _ => 200
           | .error _ => 500) ∧
      (∀ err, (service.GetIdP env id s).1 = .error err →
        ((handler.HandleIdPGetRequest env ⟨"/identity-providers/" ++ id, body⟩
          ResponseWriter.fresh s).1.StatusCode = 404 ↔ errorsIs err .ErrIdPNotFound = true))) := by
  have hid : TrimPrefix ("/identity-providers/" ++ id) "/identity-providers/" = id :=
    TrimPrefix_append _ _
  refine ⟨?_, ?_⟩
  · intro h0
    subst h0
    simp only [handler.HandleIdPGetRequest, hid, if_true]
    exact ⟨httpError_status ResponseWriter.fresh _ _ rfl, trivial⟩
  · intro hne
    have hst : (handler.HandleIdPGetRequest env ⟨"/identity-providers/" ++ id, body⟩
        ResponseWriter.fresh s).1.StatusCode =
        (match (service.GetIdP env id s).1 with
         | .error err => if errorsIs err .ErrIdPNotFound then 404 else 500
         | .ok idp =>
           match env.Encode (.object (handler.idpMap idp)) with
           | .ok _ => 200
           | .error _ => 500) := by
      rcases hg : service.GetIdP env id s with ⟨err | idp, s1⟩
      · simp only [handler.HandleIdPGetRequest, hid, hne, if_false, hg]
        by_cases hb : errorsIs err .ErrIdPNotFound = true
        · simp only [hb, if_true]
          exact httpError_status ResponseWriter.fresh _ _ rfl
        · simp only [hb, if_false, Bool.false_eq_true]
          exact httpError_status ResponseWriter.fresh _ _ rfl
      · simp only [handler.HandleIdPGetRequest, hid, hne, if_false, hg]
        exact encodeOrError_status env _ _ rfl
    refine ⟨?_, hst, ?_⟩
    · simp only [handler.HandleIdPGetRequest, hid, hne, if_false]
      rcases hg : service.GetIdP env id s with ⟨err | idp, s1⟩
      · simp only
        split_ifs <;> rfl
      · rfl
    · intro err he
      rw [hst, he]
      by_cases hb : errorsIs err .ErrIdPNotFound = true <;> simp [hb]

/-- C13 for a GET of an id the reference table does not hold: 404. -/
theorem get_status_by_outcome_witness :
    (handler.HandleIdPGetRequest Ref.web ⟨"/identity-providers/missing", ""⟩
      ResponseWriter.fresh Ref.stored).1.StatusCode = 404 :=
  (((get_status_by_outcome Ref.web "missing" "" Ref.stored).2 (by decide)).2.2
    .ErrIdPNotFound rfl).mpr rfl

/-- C15.  When the select-all executes and returns `rows`, `store.GetIdPList`
is the decoding of the rows one by one in order: if every row decodes, the
result is the list of the decoded records, one per row in row order, with no
error (for no rows the empty list and no error); if some row does not decode,
the result is an error and the empty list, whatever was decoded before. -/
theorem GetIdPList_decodes_rows_in_order {σ : Type} (env : Env σ) (c : DBClient σ)
    (rows : List Row) (s s1 s2 : σ)
    (hcli : env.GetDBClient "identity" s = (.ok c, s1))
    (hsel : c.Query store.QueryGetIdPList [] s1 = (.ok rows, s2)) :
    ((∀ row ∈ rows, (store.buildIdPForListFromResultRow env row).2 = none) →
      (store.GetIdPList env s).1 =
        (rows.map (fun row => (store.buildIdPForListFromResultRow env row).1), none) ∧
      (store.GetIdPList env s).1.1.length = rows.length) ∧
    (rows = [] → (store.GetIdPList env s).1 = ([], none)) ∧
    ((∃ row ∈ rows, (store.buildIdPForListFromResultRow env row).2 ≠ none) →
      ∃ err, (store.GetIdPList env s).1 =
        ([], some (.wrap "failed to build idp from result row" err))) := by
  have h : store.GetIdPList env s = (store.GetIdPList.loop env rows [], (c.Close s2).2) := by
    simp [store.GetIdPList, hcli, store.closing, hsel]
  rw [h]
  refine ⟨?_, ?_, ?_⟩
  · intro hall
    simp [store.GetIdPList.loop_all env rows [] hall]
  · intro h0
    subst h0
    rfl
  · intro hsome
    obtain ⟨err, he⟩ := store.GetIdPList.loop_some env rows [] hsome
    exact ⟨err, he⟩

/-- C15 on a table of two records: both are listed, in table order, without
secret and redirect URI. -/
theorem GetIdPList_decodes_rows_in_order_witness :
    (store.GetIdPList Ref.web Ref.pair).1 =
      ([⟨"a", "Google", "Google User Login", "client2", "", "", []⟩,
        ⟨"b", "Github", "Login with Github", "client1", "", "", []⟩], none) :=
  ((GetIdPList_decodes_rows_in_order Ref.web (Ref.client none) _ Ref.pair _ _ rfl rfl).1
    (by decide)).1

/-- C16 (no leak of error detail).  Take two runs of a handler, in any two
environments, in each of which the service fails.  If the two errors fall in the
same category (for POST: both or neither is or wraps `ErrBadScopesInRequest`;
for GET: both or neither `ErrIdPNotFound`; for PUT: both; for list and DELETE:
any two errors), the two responses are the same response, status, headers and
body.  The body is one of the listed texts, which are made of the message
constants of the handler alone. -/
theorem error_responses_depend_on_category_only {σ : Type} (env env2 : Env σ) (r r2 : Request)
    (s s2 : σ) :
    (∀ idp idp2 err err2 t t2,
      env.Decode r.Body = .ok idp → env2.Decode r2.Body = .ok idp2 →
      service.CreateIdP env idp s = (.error err, t) →
      service.CreateIdP env2 idp2 s2 = (.error err2, t2) →
      errorsIs err .ErrBadScopesInRequest = errorsIs err2 .ErrBadScopesInRequest →
      (handler.HandleIdPPostRequest env r ResponseWriter.fresh s).1 =
        (handler.HandleIdPPostRequest env2 r2 ResponseWriter.fresh s2).1 ∧
      (handler.HandleIdPPostRequest env r ResponseWriter.fresh s).1.body ∈
        ["Bad Request: The scopes element is malformed or contains invalid data.\n" ++
           "Internal Server Error\n",
         "Internal Server Error\n" ++ "Internal Server Error\n"]) ∧
    (∀ l l2 err err2 t t2,
      service.GetIdPList env s = ((l, some err), t) →
      service.GetIdPList env2 s2 = ((l2, some err2), t2) →
      (handler.HandleIdPListRequest env r ResponseWriter.fresh s).1 =
        (handler.HandleIdPListRequest env2 r2 ResponseWriter.fresh s2).1 ∧
      (handler.HandleIdPListRequest env r ResponseWriter.fresh s).1.body =
        "Internal Server Error\n") ∧
    (∀ err err2 t t2,
      TrimPrefix r.URLPath "/identity-providers/" ≠ "" →
      TrimPrefix r2.URLPath "/identity-providers/" ≠ "" →
      service.GetIdP env (TrimPrefix r.URLPath "/identity-providers/") s = (.error err, t) →
      service.GetIdP env2 (TrimPrefix r2.URLPath "/identity-providers/") s2 = (.error err2, t2) →
      errorsIs err .ErrIdPNotFound = errorsIs err2 .ErrIdPNotFound →
      (handler.HandleIdPGetRequest env r ResponseWriter.fresh s).1 =
        (handler.HandleIdPGetRequest env2 r2 ResponseWriter.fresh s2).1 ∧
      (handler.HandleIdPGetRequest env r ResponseWriter.fresh s).1.body ∈
        ["Not Found: The identity provider with the specified id does not exist.\n",
         "Internal Server Error\n"]) ∧
    (∀ idp idp2 err err2 t t2,
      TrimPrefix r.URLPath "/identity-providers/" ≠ "" →
      TrimPrefix r2.URLPath "/identity-providers/" ≠ "" →
      env.Decode r.Body = .ok idp → env2.Decode r2.Body = .ok idp2 →
      service.UpdateIdP env (TrimPrefix r.URLPath "/identity-providers/")
        { idp with ID := TrimPrefix r.URLPath "/identity-providers/" } s = (.error err, t) →
      service.UpdateIdP env2 (TrimPrefix r2.URLPath "/identity-providers/")
        { idp2 with ID := TrimPrefix r2.URLPath "/identity-providers/" } s2 = (.error err2, t2) →
      errorsIs err .ErrIdPNotFound = errorsIs err2 .ErrIdPNotFound →
      errorsIs err .ErrBadScopesInRequest = errorsIs err2 .ErrBadScopesInRequest →
      (handler.HandleIdPPutRequest env r ResponseWriter.fresh s).1 =
        (handler.HandleIdPPutRequest env2 r2 ResponseWriter.fresh s2).1 ∧
      (handler.HandleIdPPutRequest env r ResponseWriter.fresh s).1.body ∈
        ["Not Found: The identity provider with the specified id does not exist.\n",
         "Bad Request: The attributes element is malformed or contains invalid data.\n",
         "Internal Server Error\n"]) ∧
    (∀ err err2 t t2,
      TrimPrefix r.URLPath "/identity-providers/" ≠ "" →
      TrimPrefix r2.URLPath "/identity-providers/" ≠ "" →
      service.DeleteIdP env (TrimPrefix r.URLPath "/identity-providers/") s = (some err, t) →
      service.DeleteIdP env2 (TrimPrefix r2.URLPath "/identity-providers/") s2 = (some err2, t2) →
      (handler.HandleIdPDeleteRequest env r ResponseWriter.fresh s).1 =
        (handler.HandleIdPDeleteRequest env2 r2 ResponseWriter.fresh s2).1 ∧
      (handler.HandleIdPDeleteRequest env r ResponseWriter.fresh s).1.body =
        "Internal Server Error\n") := by
  refine ⟨?_, ?_, ?_, ?_, ?_⟩
  · intro idp idp2 err err2 t t2 hd hd2 hs hs2 hcat
    rw [handler.post_error_response env r s t idp err hd hs,
      handler.post_error_response env2 r2 s2 t2 idp2 err2 hd2 hs2, hcat]
    refine ⟨rfl, ?_⟩
    cases errorsIs err2 .ErrBadScopesInRequest <;> decide
  · intro l l2 err err2 t t2 hs hs2
    rw [handler.list_error_response env r s t l err hs,
      handler.list_error_response env2 r2 s2 t2 l2 err2 hs2]
    exact ⟨rfl, by decide⟩
  · intro err err2 t t2 hne hne2 hs hs2 hcat
    rw [handler.get_error_response env r s t err hs hne,
      handler.get_error_response env2 r2 s2 t2 err2 hs2 hne2, hcat]
    refine ⟨rfl, ?_⟩
    cases errorsIs err2 .ErrIdPNotFound <;> decide
  · intro idp idp2 err err2 t t2 hne hne2 hd hd2 hs hs2 hcat hcat2
    rw [handler.put_error_response env r s t idp err hne hd hs,
      handler.put_error_response env2 r2 s2 t2 idp2 err2 hne2 hd2 hs2, hcat, hcat2]
    refine ⟨rfl, ?_⟩
    cases errorsIs err2 .ErrIdPNotFound <;> cases errorsIs err2 .ErrBadScopesInRequest <;> decide
  · intro err err2 t t2 hne hne2 hs hs2
    rw [handler.delete_error_response env r s t err hne hs,
      handler.delete_error_response env2 r2 s2 t2 err2 hne2 hs2]
    exact ⟨rfl, by decide⟩

/-- C16 for two GETs that fail differently, one for want of a database and one
on a table with two rows of the id asked for: the same 500 response. -/
theorem error_responses_depend_on_category_only_witness :
    (handler.HandleIdPGetRequest Ref.offline ⟨"/identity-providers/b", ""⟩
        ResponseWriter.fresh Ref.stored).1 =
      (handler.HandleIdPGetRequest Ref.web ⟨"/identity-providers/a", ""⟩
        ResponseWriter.fresh Ref.twins).1 ∧
    (handler.HandleIdPGetRequest Ref.offline ⟨"/identity-providers/b", ""⟩
        ResponseWriter.fresh Ref.stored).1.body ∈
      ["Not Found: The identity provider with the specified id does not exist.\n",
       "Internal Server Error\n"] :=
  (error_responses_depend_on_category_only Ref.offline Ref.web
    ⟨"/identity-providers/b", ""⟩ ⟨"/identity-providers/a", ""⟩ Ref.stored Ref.twins).2.2.1
    (.wrap "failed to get database client" (.new "connection refused"))
    (.new "unexpected number of results: 2") _ _ (by decide) (by decide) rfl rfl rfl

/-- C17.  If two rows agree on every column but `scopes`, which holds the text
`text` as a string in one and as bytes in the other, each of the two row
decoders returns the same result, record and error, for both.  A row whose
scopes column holds anything else (or nothing) is rejected by both decoders
with an error and the zero record. -/
theorem scopes_text_or_bytes_decode_alike {σ : Type} (env : Env σ) (row row2 : Row)
    (text : String) (hstr : row.get "scopes" = some (.str text))
    (hbytes : row2.get "scopes" = some (.bytes text))
    (hsame : ∀ key, key ≠ "scopes" → row.get key = row2.get key) :
    store.buildIdPFromResultRow env row = store.buildIdPFromResultRow env row2 ∧
    store.buildIdPForListFromResultRow env row = store.buildIdPForListFromResultRow env row2 ∧
    (∀ row3 : Row, (∀ t, row3.get "scopes" ≠ some (.str t)) →
      (∀ t, row3.get "scopes" ≠ some (.bytes t)) →
      (∃ err, store.buildIdPFromResultRow env row3 = (IdP.zero, some err)) ∧
      (∃ err, store.buildIdPForListFromResultRow env row3 = (IdP.zero, some err))) := by
  have hk : ∀ key, key ≠ "scopes" → row.getString key = row2.getString key := by
    intro key h
    simp only [Row.getString, hsame key h]
  have hsc : store.scopesColumn row = store.scopesColumn row2 := by
    simp only [store.scopesColumn, hstr, hbytes]
  refine ⟨?_, ?_, ?_⟩
  · simp only [store.buildIdPFromResultRow, hsc, hk "idp_id" (by decide),
      hk "name" (by decide), hk "description" (by decide), hk "client_id" (by decide),
      hk "client_secret" (by decide), hk "redirect_uri" (by decide)]
  · simp only [store.buildIdPForListFromResultRow, hsc, hk "idp_id" (by decide),
      hk "name" (by decide), hk "description" (by decide), hk "client_id" (by decide)]
  · intro row3 h1 h2
    exact store.scopesColumn_none_rejected env row3 (store.scopesColumn_eq_none row3 h1 h2)

/-- C17 for the stored record with its scopes delivered as text and as bytes. -/
theorem scopes_text_or_bytes_decode_alike_witness :
    store.buildIdPFromResultRow Ref.web
        [("idp_id", .str "b"), ("name", .str "Github"), ("description", .str "d"),
         ("client_id", .str "client1"), ("client_secret", .str "secret1"),
         ("redirect_uri", .str "https://h/cb"), ("scopes", .str "[\"user:email\"]")] =
      store.buildIdPFromResultRow Ref.web
        [("idp_id", .str "b"), ("name", .str "Github"), ("description", .str "d"),
         ("client_id", .str "client1"), ("client_secret", .str "secret1"),
         ("redirect_uri", .str "https://h/cb"), ("scopes", .bytes "[\"user:email\"]")] ∧
    store.buildIdPFromResultRow Ref.web
        [("idp_id", .str "b"), ("name", .str "Github"), ("description", .str "d"),
         ("client_id", .str "client1"), ("client_secret", .str "secret1"),
         ("redirect_uri", .str "https://h/cb"), ("scopes", .bytes "[\"user:email\"]")] =
      (⟨"b", "Github", "d", "client1", "secret1", "https://h/cb", ["user:email"]⟩, none) ∧
    (∃ err, store.buildIdPFromResultRow Ref.web
        [("idp_id", .str "b"), ("name", .str "Github"), ("description", .str "d"),
         ("client_id", .str "client1"), ("client_secret", .str "secret1"),
         ("redirect_uri", .str "https://h/cb"), ("scopes", .int 7)] = (IdP.zero, some err)) :=
  have h := scopes_text_or_bytes_decode_alike Ref.web
    [("idp_id", .str "b"), ("name", .str "Github"), ("description", .str "d"),
     ("client_id", .str "client1"), ("client_secret", .str "secret1"),
     ("redirect_uri", .str "https://h/cb"), ("scopes", .str "[\"user:email\"]")]
    [("idp_id", .str "b"), ("name", .str "Github"), ("description", .str "d"),
     ("client_id", .str "client1"), ("client_secret", .str "secret1"),
     ("redirect_uri", .str "https://h/cb"), ("scopes", .bytes "[\"user:email\"]")]
    "[\"user:email\"]" (by decide) (by decide)
    (by
      intro key hkey
      simp only [Row.get, List.lookup]
      repeat' split
      all_goals first | rfl | simp_all)
  ⟨h.1, by decide,
    (h.2.2 [("idp_id", .str "b"), ("name", .str "Github"), ("description", .str "d"),
       ("client_id", .str "client1"), ("client_secret", .str "secret1"),
       ("redirect_uri", .str "https://h/cb"), ("scopes", .int 7)]
      (by intro t h; simp [Row.get, List.lookup] at h)
      (by intro t h; simp [Row.get, List.lookup] at h)).1⟩

/-- C18 (no partial decode).  For every row `buildIdPFromResultRow` returns
either an error with the zero record, or no error with a record whose id, name,
description, client_id, client_secret and redirect_uri are the row's columns
and whose scopes are the row's scopes column deserialised.  It returns an error
whenever one of the six string columns is missing or not a string, whenever the
scopes column is neither text nor bytes, and whenever the scopes text does not
deserialise. -/
theorem buildIdPFromResultRow_all_or_nothing {σ : Type} (env : Env σ) (row : Row) :
    ((∃ err, store.buildIdPFromResultRow env row = (IdP.zero, some err)) ∨
     (∃ idp text, store.buildIdPFromResultRow env row = (idp, none) ∧
        store.Carries row idp text ∧ env.Unmarshal text = .ok idp.Scopes)) ∧
    (∀ key ∈ ["idp_id", "name", "description", "client_id", "client_secret", "redirect_uri"],
      (∀ t, row.get key ≠ some (.str t)) →
      ∃ err, store.buildIdPFromResultRow env row = (IdP.zero, some err)) ∧
    ((∀ t, row.get "scopes" ≠ some (.str t)) → (∀ t, row.get "scopes" ≠ some (.bytes t)) →
      ∃ err, store.buildIdPFromResultRow env row = (IdP.zero, some err)) ∧
    (∀ text e, store.scopesColumn row = some text → env.Unmarshal text = .error e →
      ∃ err, store.buildIdPFromResultRow env row = (IdP.zero, some err)) := by
  have hmiss : ∀ key ∈ ["idp_id", "name", "description", "client_id", "client_secret",
      "redirect_uri"], row.getString key = none →
      ∃ err, store.buildIdPFromResultRow env row = (IdP.zero, some err) := by
    intro key hkey hnone
    simp only [List.mem_cons, List.mem_singleton, List.not_mem_nil, or_false] at hkey
    unfold store.buildIdPFromResultRow
    rcases hkey with h | h | h | h | h | h <;> subst h <;>
      (repeat' split) <;> first | exact ⟨_, rfl⟩ | simp_all
  have hunm : ∀ text e, store.scopesColumn row = some text → env.Unmarshal text = .error e →
      ∃ err, store.buildIdPFromResultRow env row = (IdP.zero, some err) := by
    intro text e hsc hu
    unfold store.buildIdPFromResultRow
    rw [hsc]
    (repeat' split) <;> first | exact ⟨_, rfl⟩ | simp_all
  refine ⟨?_, ?_, ?_, hunm⟩
  · rcases h1 : row.getString "idp_id" with _ | a1
    · exact Or.inl (hmiss "idp_id" (by simp) h1)
    rcases h2 : row.getString "name" with _ | a2
    · exact Or.inl (hmiss "name" (by simp) h2)
    rcases h3 : row.getString "description" with _ | a3
    · exact Or.inl (hmiss "description" (by simp) h3)
    rcases h4 : row.getString "client_id" with _ | a4
    · exact Or.inl (hmiss "client_id" (by simp) h4)
    rcases h5 : row.getString "client_secret" with _ | a5
    · exact Or.inl (hmiss "client_secret" (by simp) h5)
    rcases h6 : row.getString "redirect_uri" with _ | a6
    · exact Or.inl (hmiss "redirect_uri" (by simp) h6)
    rcases h7 : store.scopesColumn row with _ | text
    · exact Or.inl (store.scopesColumn_none_rejected env row h7).1
    rcases h8 : env.Unmarshal text with e | sc
    · exact Or.inl (hunm text e h7 h8)
    · refine Or.inr ⟨⟨a1, a2, a3, a4, a5, a6, sc⟩, text, ?_, ⟨h1, h2, h3, h4, h5, h6, h7⟩, h8⟩
      simp [store.buildIdPFromResultRow, h1, h2, h3, h4, h5, h6, h7, h8]
  · intro key hkey hnot
    exact hmiss key hkey (store.getString_eq_none row key hnot)
  · intro hs hb
    exact (store.scopesColumn_none_rejected env row (store.scopesColumn_eq_none row hs hb)).1

/-- C14 (the code where closing fails).  With a client whose `Close` reports
"close failed", each of the five store operations that succeeds still returns
no error: the close error is not reported.  In general the deferred close
leaves the result of the body as it is. -/
theorem close_failure_is_not_reported :
    (Ref.client (some (.new "close failed"))).Close Ref.stored =
      (some (.new "close failed"), { Ref.stored with calls := 1 }) ∧
    (store.CreateIdP Ref.leaky { Ref.github with ID := "n" } Ref.stored).1 = none ∧
    (store.GetIdPList Ref.leaky Ref.stored).1.2 = none ∧
    (store.GetIdP Ref.leaky "b" Ref.stored).1.2 = none ∧
    (store.UpdateIdP Ref.leaky { Ref.github with ID := "b" } Ref.stored).1 = none ∧
    (store.DeleteIdP Ref.leaky "b" Ref.stored).1 = none ∧
    ∀ (σ α : Type) (c : DBClient σ) (body : α × σ), (store.closing c body).1 = body.1 := by
  refine ⟨rfl, by decide, by decide, by decide, by decide, by decide, ?_⟩
  intro σ α c body
  rfl

/-- C19 (the code at the failing input).  A POST whose create fails is answered
with two messages: when the scopes do not serialise, status 400 with the "Bad
Request" message followed by "Internal Server Error"; when the insert fails,
status 500 with "Internal Server Error" twice. -/
theorem post_error_body_has_two_messages :
    (handler.HandleIdPPostRequest Ref.unserialisable ⟨"/identity-providers", "body"⟩
        ResponseWriter.fresh Ref.emptyWorld).1.StatusCode = 400 ∧
    (handler.HandleIdPPostRequest Ref.unserialisable ⟨"/identity-providers", "body"⟩
        ResponseWriter.fresh Ref.emptyWorld).1.body =
      "Bad Request: The scopes element is malformed or contains invalid data.\n" ++
        "Internal Server Error\n" ∧
    (handler.HandleIdPPostRequest Ref.web ⟨"/identity-providers", "body"⟩
        ResponseWriter.fresh ⟨[⟨"u1", "n", "d", "c", "x", "r", "[]"⟩], ["u1"], 0⟩).1.StatusCode =
      500 ∧
    (handler.HandleIdPPostRequest Ref.web ⟨"/identity-providers", "body"⟩
        ResponseWriter.fresh ⟨[⟨"u1", "n", "d", "c", "x", "r", "[]"⟩], ["u1"], 0⟩).1.body =
      "Internal Server Error\n" ++ "Internal Server Error\n" := by
  refine ⟨by decide, by decide, by decide, by decide⟩

/-- C20 (the code at the failing input).  A POST whose create succeeds and whose
response fails to encode is answered with status 201, sent before the encoding,
and the body "Internal Server Error".  The list, GET and PUT handlers send no
status before encoding and answer 500 when it fails. -/
theorem post_encoding_failure_keeps_201 :
    (handler.HandleIdPPostRequest Ref.mute ⟨"/identity-providers", "body"⟩
        ResponseWriter.fresh Ref.emptyWorld).1.StatusCode = 201 ∧
    (handler.HandleIdPPostRequest Ref.mute ⟨"/identity-providers", "body"⟩
        ResponseWriter.fresh Ref.emptyWorld).1.body = "Internal Server Error\n" ∧
    (∀ (σ : Type) (env : Env σ) (r : Request) (s s1 : σ) (idp created : IdP) (err : GoError),
      env.Decode r.Body = .ok idp → service.CreateIdP env idp s = (.ok created, s1) →
      env.Encode (.object (handler.idpJSON created)) = .error err →
      (handler.HandleIdPPostRequest env r ResponseWriter.fresh s).1.StatusCode = 201) ∧
    (∀ (σ : Type) (env : Env σ) (r : Request) (s s1 : σ) (idps : List IdP) (err : GoError),
      service.GetIdPList env s = ((idps, none), s1) →
      env.Encode (.array (idps.map handler.idpJSON)) = .error err →
      (handler.HandleIdPListRequest env r ResponseWriter.fresh s).1.StatusCode = 500) ∧
    (∀ (σ : Type) (env : Env σ) (r : Request) (s s1 : σ) (idp : IdP) (err : GoError),
      service.GetIdP env (TrimPrefix r.URLPath "/identity-providers/") s = (.ok idp, s1) →
      env.Encode (.object (handler.idpMap idp)) = .error err →
      (handler.HandleIdPGetRequest env r ResponseWriter.fresh s).1.StatusCode = 500) ∧
    (∀ (σ : Type) (env : Env σ) (r : Request) (s s1 : σ) (body idp : IdP) (err : GoError),
      TrimPrefix r.URLPath "/identity-providers/" ≠ "" → env.Decode r.Body = .ok body →
      service.UpdateIdP env (TrimPrefix r.URLPath "/identity-providers/")
        { body with ID := TrimPrefix r.URLPath "/identity-providers/" } s = (.ok idp, s1) →
      env.Encode (.object (handler.idpJSON idp)) = .error err →
      (handler.HandleIdPPutRequest env r ResponseWriter.fresh s).1.StatusCode = 500) := by
  refine ⟨by decide, by decide, ?_, ?_, ?_, ?_⟩
  · intro σ env r s s1 idp created err hd hs _
    simp only [handler.HandleIdPPostRequest, hd, hs]
    exact StatusCode_of_sent _ (201, [("Content-Type", "application/json")])
      (encodeOrError_sent env
        ((ResponseWriter.fresh.SetHeader "Content-Type" "application/json").WriteHeader 201)
        _ _ (by decide))
  · intro σ env r s s1 idps err hs he
    simp only [handler.HandleIdPListRequest, hs]
    rw [encodeOrError_status env _ _ rfl, he]
  · intro σ env r s s1 idp err hs he
    have hne : TrimPrefix r.URLPath "/identity-providers/" ≠ "" := by
      intro h0
      rw [h0] at hs
      simp [service.GetIdP] at hs
    simp only [handler.HandleIdPGetRequest, hne, if_false, hs]
    rw [encodeOrError_status env _ _ rfl, he]
  · intro σ env r s s1 body idp err hne hd hs he
    simp only [handler.HandleIdPPutRequest, hne, if_false, hd, hs]
    rw [encodeOrError_status env _ _ rfl, he]

end Thunder
